import Mathlib

/-!
# Verification of the 4cat query-registry core (`backend/lib/query.py`)

This file shallowly embeds the `SearchQuery` class of `backend/lib/query.py`
and the store/filesystem collaborators it uses, and proves the frozen claims
about the query lifecycle: resolve-or-create idempotence, the finish state
machine, result-file reservation, key generation and parameter storage.

Conventions of the embedding:
* the relational store is a `List Row` (the `queries` table, in insertion
  order); `Database.update` updates every row matching the `where` conditions
  and returns the number of matched rows, `Database.insert` appends;
* the filesystem is a `Finset String` of paths of files that exist
  (`os.path.isfile path` becomes `path ∈ fs`); no operation modelled here
  creates files, so the filesystem is threaded as a read-only environment;
* Python `int` is `Int`, machine strings are Lean `String`;
* raising an exception is returning `.error e` together with the unchanged
  object and store (a raise happens before any mutation in every method
  modelled here);
* `hashlib.md5(...).hexdigest()` is implemented bit-faithfully on `Nat`
  (32-bit words represented as naturals reduced `% 2^32`).
-/

/-! ## Decimal rendering (model of Python `str(int)` / `repr(int)`) -/

/-- Decimal digit character for `n < 10`. -/
def natDigitChar (n : Nat) : Char :=
  [ '0', '1', '2', '3', '4', '5', '6', '7', '8', '9' ].getD n '0'

/-- Decimal digit list of a natural number, most significant first;
fuel-based recursion (any `fuel > n` gives the true digit list). -/
def natDigitsAux (fuel : Nat) (n : Nat) : List Char :=
  match fuel with
  | 0 => []
  | fuel + 1 =>
    if n < 10 then [natDigitChar n]
    else natDigitsAux fuel (n / 10) ++ [natDigitChar (n % 10)]

/-- Decimal digit list of a natural number, most significant first. -/
def natDigits (n : Nat) : List Char := natDigitsAux (n + 1) n

/-- Decimal rendering of a natural number, the model of Python `str(n)`. -/
def natRepr (n : Nat) : String := String.mk (natDigits n)

/-- Decimal rendering of an integer, the model of Python `str(i)`/`repr(i)`. -/
def intRepr (i : Int) : String :=
  if i < 0 then "-" ++ natRepr i.natAbs else natRepr i.natAbs

/-! ## Hexadecimal rendering -/

/-- Lowercase hexadecimal digit character for `n < 16`. -/
def hexDigitChar (n : Nat) : Char :=
  if n < 10 then Char.ofNat (48 + n)
  else if n < 16 then Char.ofNat (87 + n)
  else Char.ofNat 48

/-- Two lowercase hex characters of a byte (most significant nibble first). -/
def byteHex (b : Nat) : List Char :=
  [hexDigitChar (b / 16 % 16), hexDigitChar (b % 16)]

/-- Lowercase hex string of a byte list. -/
def bytesToHex (bs : List Nat) : String := String.mk (bs.map byteHex).flatten

/-! ## UTF-8 encoding (model of Python `str.encode("utf-8")`) -/

/-- UTF-8 bytes of one character. -/
def utf8CharBytes (c : Char) : List Nat :=
  let n := c.toNat
  if n < 128 then [n]
  else if n < 2048 then [192 + n / 64, 128 + n % 64]
  else if n < 65536 then [224 + n / 4096, 128 + n / 64 % 64, 128 + n % 64]
  else [240 + n / 262144, 128 + n / 4096 % 64, 128 + n / 64 % 64, 128 + n % 64]

/-- UTF-8 byte sequence of a string. -/
def utf8Bytes (s : String) : List Nat := (s.data.map utf8CharBytes).flatten

/-! ## MD5 (model of `hashlib.md5(...).hexdigest()`)

Standard MD5 over byte lists; 32-bit words are naturals kept below `2 ^ 32`.
-/

/-- The MD5 sine-derived constant table `K` (`floor(|sin(i+1)| * 2^32)`). -/
def md5K : List Nat :=
  [ 3614090360, 3905402710, 606105819, 3250441966, 4118548399, 1200080426,
    2821735955, 4249261313, 1770035416, 2336552879, 4294925233, 2304563134,
    1804603682, 4254626195, 2792965006, 1236535329, 4129170786, 3225465664,
    643717713, 3921069994, 3593408605, 38016083, 3634488961, 3889429448,
    568446438, 3275163606, 4107603335, 1163531501, 2850285829, 4243563512,
    1735328473, 2368359562, 4294588738, 2272392833, 1839030562, 4259657740,
    2763975236, 1272893353, 4139469664, 3200236656, 681279174, 3936430074,
    3572445317, 76029189, 3654602809, 3873151461, 530742520, 3299628645,
    4096336452, 1126891415, 2878612391, 4237533241, 1700485571, 2399980690,
    4293915773, 2240044497, 1873313359, 4264355552, 2734768916, 1309151649,
    4149444226, 3174756917, 718787259, 3951481745 ]

/-- The MD5 per-round left-rotation amounts. -/
def md5S : List Nat :=
  [ 7, 12, 17, 22, 7, 12, 17, 22, 7, 12, 17, 22, 7, 12, 17, 22,
    5, 9, 14, 20, 5, 9, 14, 20, 5, 9, 14, 20, 5, 9, 14, 20,
    4, 11, 16, 23, 4, 11, 16, 23, 4, 11, 16, 23, 4, 11, 16, 23,
    6, 10, 15, 21, 6, 10, 15, 21, 6, 10, 15, 21, 6, 10, 15, 21 ]

/-- Left rotation of a 32-bit word (inputs below `2 ^ 32`, `s ≤ 32`). -/
def rotl32 (x s : Nat) : Nat :=
  (x * 2 ^ s + x / 2 ^ (32 - s)) % 4294967296

/-- MD5 padding: append `0x80`, zero bytes to 56 mod 64, and the 64-bit
little-endian bit length. -/
def md5Pad (msg : List Nat) : List Nat :=
  let len := msg.length
  let padLen := (119 - len % 64) % 64
  let bitLen := (len * 8) % 18446744073709551616
  msg ++ [128] ++ List.replicate padLen 0 ++
    [ bitLen % 256, bitLen / 256 % 256, bitLen / 65536 % 256,
      bitLen / 16777216 % 256, bitLen / 4294967296 % 256,
      bitLen / 1099511627776 % 256, bitLen / 281474976710656 % 256,
      bitLen / 72057594037927936 % 256 ]

/-- Split a byte list into 64-byte chunks; fuel-based recursion (any
`fuel ≥ bs.length` splits the whole list). -/
def chunks64Aux (fuel : Nat) (bs : List Nat) : List (List Nat) :=
  match fuel, bs with
  | _, [] => []
  | 0, _ :: _ => []
  | fuel + 1, b :: rest => ((b :: rest).take 64) :: chunks64Aux fuel ((b :: rest).drop 64)

/-- Split a byte list into 64-byte chunks. -/
def chunks64 (bs : List Nat) : List (List Nat) := chunks64Aux bs.length bs

/-- The `j`-th little-endian 32-bit word of a 64-byte chunk. -/
def chunkWord (chunk : List Nat) (j : Nat) : Nat :=
  chunk.getD (4 * j) 0 + chunk.getD (4 * j + 1) 0 * 256 +
    chunk.getD (4 * j + 2) 0 * 65536 + chunk.getD (4 * j + 3) 0 * 16777216

/-- One MD5 round: round `i` applied to state `(A, B, C, D)`. -/
def md5Round (chunk : List Nat) (st : Nat × Nat × Nat × Nat) (i : Nat) :
    Nat × Nat × Nat × Nat :=
  let (A, B, C, D) := st
  let fg : Nat × Nat :=
    if i < 16 then ((B &&& C) ||| ((4294967295 - B) &&& D), i)
    else if i < 32 then ((D &&& B) ||| ((4294967295 - D) &&& C), (5 * i + 1) % 16)
    else if i < 48 then (B ^^^ C ^^^ D, (3 * i + 5) % 16)
    else (C ^^^ (B ||| (4294967295 - D)), (7 * i) % 16)
  let F := (fg.1 + A + md5K.getD i 0 + chunkWord chunk fg.2) % 4294967296
  (D, (B + rotl32 F (md5S.getD i 0)) % 4294967296, B, C)

/-- Process one 64-byte chunk: 64 rounds, then add to the running state. -/
def md5Chunk (st : Nat × Nat × Nat × Nat) (chunk : List Nat) :
    Nat × Nat × Nat × Nat :=
  let (a0, b0, c0, d0) := st
  let (A, B, C, D) := (List.range 64).foldl (md5Round chunk) (a0, b0, c0, d0)
  ((a0 + A) % 4294967296, (b0 + B) % 4294967296,
   (c0 + C) % 4294967296, (d0 + D) % 4294967296)

/-- Little-endian byte rendering of a 32-bit word (always four bytes). -/
def wordLEBytes (w : Nat) : List Nat :=
  [w % 256, w / 256 % 256, w / 65536 % 256, w / 16777216 % 256]

/-- MD5 digest of a byte list, as 16 bytes. -/
def md5Bytes (msg : List Nat) : List Nat :=
  let (a, b, c, d) :=
    (chunks64 (md5Pad msg)).foldl md5Chunk
      (1732584193, 4023233417, 2562383102, 271733878)
  wordLEBytes a ++ wordLEBytes b ++ wordLEBytes c ++ wordLEBytes d

/-- Model of `hashlib.md5(s.encode("utf-8")).hexdigest()`. -/
def md5hex (s : String) : String := bytesToHex (md5Bytes (utf8Bytes s))

/-! ## Python parameter values and `repr` (model of the parameter dict)

`SearchQuery` parameters are Python dicts; Python 3.7+ dicts preserve
insertion order, so a dict is modelled as an association list in insertion
order.  Values are restricted to the integers and strings the pipeline
stores.  `pyReprVal (.pstr s)` models Python `repr` for strings containing
no quote, backslash or control character (every theorem that evaluates a
`repr` restricts its strings accordingly).
-/

/-- A Python parameter value: an `int` or a `str`. -/
inductive PyVal where
  | pint (i : Int)
  | pstr (s : String)
deriving Repr, DecidableEq

/-- A Python dict in insertion order. -/
abbrev PyDict := List (String × PyVal)

/-- The left and right brace characters. -/
def lbrace : Char := Char.ofNat 123

/-- See `lbrace`. -/
def rbrace : Char := Char.ofNat 125

/-- Join rendered items with the `", "` separator (the behaviour of both
`repr` on dict items and `json.dumps` with default separators). -/
def joinComma : List String → String
  | [] => ""
  | [x] => x
  | x :: y :: rest => x ++ ", " ++ joinComma (y :: rest)

/-- The single-quote character used by Python `repr` of a string. -/
def squote : Char := Char.ofNat 39

/-- Python `repr` of a parameter value (simple strings only, see above). -/
def pyReprVal : PyVal → String
  | .pint i => intRepr i
  | .pstr s => String.mk [squote] ++ s ++ String.mk [squote]

/-- Python `repr` of a parameter dict: single-quoted keys, `: ` between key
and value, `, ` between items, the whole wrapped in braces. -/
def pyReprDict (p : PyDict) : String :=
  String.mk [lbrace] ++
    joinComma
      (p.map fun kv =>
        String.mk [squote] ++ kv.1 ++ String.mk [squote] ++ ": " ++ pyReprVal kv.2) ++
    String.mk [rbrace]

/-- `SearchQuery.get_key`: `md5(repr(parameters) + str(query)).hexdigest()`. -/
def get_key (query : String) (parameters : PyDict) : String :=
  md5hex (pyReprDict parameters ++ query)

/-! ## JSON (model of Python `json.dumps` / `json.loads`)

`json.dumps` is modelled on parameter dicts with default separators and
`ensure_ascii=True`.  `json.loads` is a recursive-descent reader of the JSON
grammar over objects, arrays, strings, integers, booleans and null; JSON
numbers with a fraction or exponent part (Python floats) and the non-standard
`NaN`/`Infinity` literals are outside the model and are treated as
unparseable.
-/

/-- A parsed JSON document. -/
inductive JVal where
  | jnull
  | jbool (b : Bool)
  | jint (i : Int)
  | jstr (s : String)
  | jarr (xs : List JVal)
  | jobj (kvs : List (String × JVal))
deriving Repr

/-- `\uXXXX` escape for a code unit `n < 65536`. -/
def uEsc (n : Nat) : List Char :=
  ['\\', 'u', hexDigitChar (n / 4096 % 16), hexDigitChar (n / 256 % 16),
   hexDigitChar (n / 16 % 16), hexDigitChar (n % 16)]

/-- `json.dumps` escaping of one character (`ensure_ascii=True`). -/
def jsonEscapeChar (c : Char) : List Char :=
  let n := c.toNat
  if c = '"' then ['\\', '"']
  else if c = '\\' then ['\\', '\\']
  else if n = 8 then ['\\', 'b']
  else if n = 9 then ['\\', 't']
  else if n = 10 then ['\\', 'n']
  else if n = 12 then ['\\', 'f']
  else if n = 13 then ['\\', 'r']
  else if n < 32 then uEsc n
  else if n < 127 then [c]
  else if n < 65536 then uEsc n
  else uEsc (55296 + (n - 65536) / 1024) ++ uEsc (56320 + (n - 65536) % 1024)

/-- `json.dumps` rendering of a string, double-quoted and escaped. -/
def jsonQuote (s : String) : String :=
  "\"" ++ String.mk (s.data.map jsonEscapeChar).flatten ++ "\""

/-- `json.dumps` rendering of a parameter value. -/
def jsonDumpVal : PyVal → String
  | .pint i => intRepr i
  | .pstr s => jsonQuote s

/-- `json.dumps(parameters)` with the default separators `(", ", ": ")`. -/
def jsonDumps (p : PyDict) : String :=
  String.mk [lbrace] ++
    joinComma
      (p.map fun kv => jsonQuote kv.1 ++ ": " ++ jsonDumpVal kv.2) ++
    String.mk [rbrace]

/-- JSON whitespace. -/
def jsonWs (c : Char) : Bool := c = ' ' || c = '\t' || c = '\n' || c = '\r'

/-- Drop leading JSON whitespace. -/
def skipWs : List Char → List Char
  | [] => []
  | c :: cs => if jsonWs c then skipWs cs else c :: cs

/-- Value of a hexadecimal digit character. -/
def hexVal? (c : Char) : Option Nat :=
  if '0' ≤ c ∧ c ≤ '9' then some (c.toNat - 48)
  else if 'a' ≤ c ∧ c ≤ 'f' then some (c.toNat - 87)
  else if 'A' ≤ c ∧ c ≤ 'F' then some (c.toNat - 55)
  else none

/-- Decode one backslash escape (the backslash already consumed). -/
def decodeEsc : List Char → Option (Char × List Char)
  | [] => none
  | e :: rest =>
    if e = '"' then some ('"', rest)
    else if e = '\\' then some ('\\', rest)
    else if e = '/' then some ('/', rest)
    else if e = 'b' then some (Char.ofNat 8, rest)
    else if e = 'f' then some (Char.ofNat 12, rest)
    else if e = 'n' then some ('\n', rest)
    else if e = 'r' then some (Char.ofNat 13, rest)
    else if e = 't' then some ('\t', rest)
    else if e = 'u' then
      match rest with
      | h1 :: h2 :: h3 :: h4 :: rest2 =>
        match hexVal? h1, hexVal? h2, hexVal? h3, hexVal? h4 with
        | some a, some b, some c, some d =>
          some (Char.ofNat (4096 * a + 256 * b + 16 * c + d), rest2)
        | _, _, _, _ => none
      | _ => none
    else none

/-- Read a JSON string body up to the closing quote (fuel-based). -/
def parseStrBody (fuel : Nat) (cs : List Char) : Option (List Char × List Char) :=
  match fuel with
  | 0 => none
  | fuel + 1 =>
    match cs with
    | [] => none
    | c :: rest =>
      if c = '"' then some ([], rest)
      else if c = '\\' then
        match decodeEsc rest with
        | none => none
        | some (ch, rest2) =>
          (parseStrBody fuel rest2).map fun br => (ch :: br.1, br.2)
      else if c.toNat < 32 then none
      else (parseStrBody fuel rest).map fun br => (c :: br.1, br.2)

/-- Decimal digit test. -/
def isDigitB (c : Char) : Bool := 48 ≤ c.toNat && c.toNat ≤ 57

/-- Read a JSON unsigned integer part (no leading zeros, per the grammar). -/
def parseDigits (cs : List Char) : Option (Nat × List Char) :=
  match cs with
  | [] => none
  | c :: rest =>
    if ¬ isDigitB c then none
    else if c = '0' then some (0, rest)
    else
      some ((c :: rest).takeWhile isDigitB |>.foldl
              (fun a ch => a * 10 + (ch.toNat - 48)) 0,
            (c :: rest).dropWhile isDigitB)

/-- Finish reading a number: reject a fraction or exponent part (floats are
outside the model), otherwise return the signed integer. -/
def numEnd (neg : Bool) (n : Nat) (rest : List Char) : Option (Int × List Char) :=
  match rest with
  | c :: _ =>
    if c = '.' ∨ c = 'e' ∨ c = 'E' then none
    else some (if neg then -(n : Int) else (n : Int), rest)
  | [] => some (if neg then -(n : Int) else (n : Int), rest)

/-- Read a JSON number; fraction or exponent parts (floats) are outside the
model and make the read fail. -/
def parseNumber (cs : List Char) : Option (Int × List Char) :=
  match cs with
  | [] => none
  | c :: rest =>
    if c = '-' then
      match parseDigits rest with
      | none => none
      | some (n, r) => numEnd true n r
    else
      match parseDigits (c :: rest) with
      | none => none
      | some (n, r) => numEnd false n r

mutual

/-- Read one JSON value (fuel-based; fuel bounds the nesting depth). -/
def parseValue (fuel : Nat) (cs : List Char) : Option (JVal × List Char) :=
  match fuel with
  | 0 => none
  | fuel + 1 =>
    match skipWs cs with
    | [] => none
    | c :: rest =>
      if c = '"' then
        (parseStrBody (rest.length + 1) rest).map fun br => (.jstr (String.mk br.1), br.2)
      else if c = lbrace then
        match skipWs rest with
        | c2 :: rest2 =>
          if c2 = rbrace then some (.jobj [], rest2)
          else
            (parseMembers fuel (c2 :: rest2)).map fun mr => (.jobj mr.1, mr.2)
        | [] => none
      else if c = '[' then
        match skipWs rest with
        | ']' :: rest2 => some (.jarr [], rest2)
        | more => (parseElems fuel more).map fun er => (.jarr er.1, er.2)
      else if c = 't' then
        match rest with
        | 'r' :: 'u' :: 'e' :: r => some (.jbool true, r)
        | _ => none
      else if c = 'f' then
        match rest with
        | 'a' :: 'l' :: 's' :: 'e' :: r => some (.jbool false, r)
        | _ => none
      else if c = 'n' then
        match rest with
        | 'u' :: 'l' :: 'l' :: r => some (.jnull, r)
        | _ => none
      else (parseNumber (c :: rest)).map fun nr => (.jint nr.1, nr.2)

/-- Read the members of a JSON object, positioned at the first key. -/
def parseMembers (fuel : Nat) (cs : List Char) :
    Option (List (String × JVal) × List Char) :=
  match fuel with
  | 0 => none
  | fuel + 1 =>
    match cs with
    | c0 :: rest =>
      if c0 = '"' then
        match parseStrBody (rest.length + 1) rest with
        | none => none
        | some (key, r1) =>
          match skipWs r1 with
          | c1 :: r2 =>
            if c1 = ':' then
              match parseValue fuel r2 with
              | none => none
              | some (v, r3) =>
                match skipWs r3 with
                | c3 :: r4 =>
                  if c3 = ',' then
                    match parseMembers fuel (skipWs r4) with
                    | none => none
                    | some (kvs, r5) => some ((String.mk key, v) :: kvs, r5)
                  else if c3 = rbrace then some ([(String.mk key, v)], r4)
                  else none
                | [] => none
            else none
          | [] => none
      else none
    | [] => none

/-- Read the elements of a JSON array, positioned at the first element. -/
def parseElems (fuel : Nat) (cs : List Char) : Option (List JVal × List Char) :=
  match fuel with
  | 0 => none
  | fuel + 1 =>
    match parseValue fuel cs with
    | none => none
    | some (v, r1) =>
      match skipWs r1 with
      | ',' :: r2 =>
        match parseElems fuel r2 with
        | none => none
        | some (vs, r3) => some (v :: vs, r3)
      | ']' :: r2 => some ([v], r2)
      | _ => none

end

/-- Model of `json.loads`: read one value, then require only trailing
whitespace (otherwise Python raises `JSONDecodeError: Extra data`). -/
def jsonLoads (s : String) : Option JVal :=
  match parseValue (s.data.length + 1) s.data with
  | some (v, rest) => if skipWs rest = [] then some v else none
  | none => none

/-! ## The `queries` table, the filesystem and the `SearchQuery` object -/

/-- One row of the `queries` table (logical column layout; `num_rows` and
`key_parent` take their column defaults when the insert omits them). -/
structure Row where
  key : String
  query : String
  parameters : String
  result_file : String
  status : String
  timestamp : Nat
  is_empty : Bool
  is_finished : Bool
  num_rows : Int := 0
  key_parent : String := ""
deriving Repr, DecidableEq

/-- The in-memory `SearchQuery` object: `self.key`, `self.query`, `self.data`. -/
structure SQ where
  key : String
  query : String
  data : Row
deriving Repr, DecidableEq

/-- The environment: the result folder (`get_absolute_folder(config.PATH_DATA)`)
and the set of paths of files existing on disk. -/
structure Env where
  folder : String
  fs : Finset String

/-- A raised Python exception, by class and message. -/
inductive PyErr where
  | typeError (msg : String)
  | runtimeError (msg : String)
deriving Repr, DecidableEq

/-- `db.fetchone("SELECT * FROM queries WHERE key = %s", key)`. -/
def findByKey (store : List Row) (k : String) : Option Row :=
  store.find? fun r => r.key == k

/-- `db.fetchone("SELECT * FROM queries WHERE key = %s AND query = %s", ...)`. -/
def findByKeyQuery (store : List Row) (k q : String) : Option Row :=
  store.find? fun r => r.key == k && r.query == q

/-- `db.update("queries", where=pred, data=f)`: update every matching row and
return the updated table together with the number of matched rows. -/
def updateWhere (store : List Row) (pred : Row → Bool) (f : Row → Row) :
    List Row × Nat :=
  (store.map fun r => if pred r then f r else r, (store.filter pred).length)

/-- The `where={"query": ..., "key": ...}` condition used by `finish`,
`reserve_result_file` and `set_empty`. -/
def whereQueryKey (q k : String) (r : Row) : Bool :=
  r.query == q && r.key == k

/-- Model of Python `str.lower` on one character (ASCII case mapping). -/
def pyCharLower (c : Char) : Char :=
  if 'A' ≤ c ∧ c ≤ 'Z' then Char.ofNat (c.toNat + 32) else c

/-- Model of Python `str.lower` (ASCII case mapping). -/
def pyLower (s : String) : String := String.mk (s.data.map pyCharLower)

/-- A character kept by the slug filter `re.sub(r"[^a-z0-9\-]", "", ...)`. -/
def slugChar (c : Char) : Bool :=
  (97 ≤ c.toNat && c.toNat ≤ 122) || (48 ≤ c.toNat && c.toNat ≤ 57) || c = '-'

/-- `query.replace(" ", "-").lower()` then the slug filter. -/
def pySlug (q : String) : String :=
  String.mk ((((q.data.map fun c => if c = ' ' then '-' else c).map
    pyCharLower)).filter slugChar)

/-- The `n`-th candidate path probed by `reserve_result_file`: the bare
`folder/file.ext` first, then `folder/file-1.ext`, `folder/file-2.ext`, ... -/
def candidatePath (folder file ext : String) (n : Nat) : String :=
  if n = 0 then folder ++ "/" ++ file ++ "." ++ ext
  else folder ++ "/" ++ file ++ "-" ++ natRepr n ++ "." ++ ext

/-- The file-name part of the `n`-th candidate (the path without the folder
prefix): `file.ext` for `n = 0`, `file-n.ext` afterwards. -/
def candidateName (file ext : String) (n : Nat) : String :=
  if n = 0 then file ++ "." ++ ext
  else file ++ "-" ++ natRepr n ++ "." ++ ext

/-- The `while os.path.isfile(path)` probe loop: try candidates from index `n`
until one names no existing file (fuel-based; `fs.card + 1` fuel suffices). -/
def findFreePath (fs : Finset String) (cand : Nat → String) :
    Nat → Nat → String
  | n, 0 => cand n
  | n, fuel + 1 => if cand n ∈ fs then findFreePath fs cand (n + 1) fuel else cand n

/-- Python `str.split(sep)` helper on character lists. -/
def pySplitAux (sep : Char) (cs : List Char) (acc : List Char) :
    List (List Char) :=
  match cs with
  | [] => [acc.reverse]
  | c :: rest =>
    if c = sep then acc.reverse :: pySplitAux sep rest []
    else pySplitAux sep rest (c :: acc)

/-- Python `str.split(sep)` (always returns at least one part). -/
def pySplit (s : String) (sep : Char) : List String :=
  (pySplitAux sep s.data []).map String.mk

/-- `path.split("/").pop()`: the last path segment. -/
def lastSegment (s : String) : String := (pySplit s '/').getLastD ""

/-- `SearchQuery.reserve_result_file`: refuse on a finished record, slug the
query text, probe the result directory for a free candidate name, persist the
chosen file name on the rows of the record and in memory, and report whether the
store write matched at least one row. -/
def SearchQuery.reserve_result_file (env : Env) (sq : SQ) (store : List Row)
    (extension : String) : Except PyErr Bool × SQ × List Row :=
  if sq.data.is_finished then
    (.error (.runtimeError "Cannot reserve results file for a finished query"),
     sq, store)
  else
    let query_bit := pySlug sq.data.query
    let file := query_bit ++ "-" ++ sq.data.key
    let path := findFreePath env.fs
      (candidatePath env.folder file (pyLower extension)) 0 (env.fs.card + 1)
    let fname := lastSegment path
    let up := updateWhere store (whereQueryKey sq.data.query sq.data.key)
      fun r => { r with result_file := fname }
    (.ok (decide (0 < up.2)),
     { sq with data := { sq.data with result_file := fname } }, up.1)

/-- The fresh row inserted by `SearchQuery.__init__` when no row matches:
default state, serialized parameters, content key, and the parent key when a
parent is given (`num_rows` and `key_parent` defaults come from the column
layout). -/
def freshRow (q : String) (p : PyDict) (parent : Option String) (now : Nat) : Row :=
  { key := get_key q p, query := q, parameters := jsonDumps p, result_file := "",
    status := "", timestamp := now, is_empty := false, is_finished := false,
    num_rows := 0, key_parent := parent.getD "" }

/-- `SearchQuery.__init__`: resolve by key (raising when no row matches),
or resolve-or-create by `(query, parameters)` — computing the content key,
loading an existing row if one matches, and otherwise inserting a fresh row
and immediately reserving a result file; raise when neither a key nor a
query/parameters pair is supplied. -/
def SearchQuery.init (env : Env) (store : List Row) (query : Option String)
    (parameters : Option PyDict) (key : Option String) (parent : Option String)
    (extension : String) (now : Nat) : Except PyErr SQ × List Row :=
  match key with
  | some k =>
    match findByKey store k with
    | none =>
      (.error (.typeError
        "SearchQuery() requires a valid query key for its key argument"),
       store)
    | some current => (.ok ⟨k, current.query, current⟩, store)
  | none =>
    match query, parameters with
    | some q, some p =>
      let k := get_key q p
      match findByKeyQuery store k q with
      | some current => (.ok ⟨k, q, current⟩, store)
      | none =>
        let row := freshRow q p parent now
        let res := SearchQuery.reserve_result_file env ⟨k, q, row⟩
          (store ++ [row]) extension
        (.ok res.2.1, res.2.2)
    | _, _ =>
      (.error (.typeError
        "SearchQuery() requires either key, or parameters and query to be given"),
       store)

/-- `SearchQuery.finish`: refuse on a finished record, otherwise persist
`is_finished=true, num_rows=num_rows` to the rows of the record and update the
in-memory state to match. -/
def SearchQuery.finish (sq : SQ) (store : List Row) (num_rows : Int) :
    Except PyErr Unit × SQ × List Row :=
  if sq.data.is_finished then
    (.error (.runtimeError "Cannot finish a finished query again"), sq, store)
  else
    let up := updateWhere store (whereQueryKey sq.data.query sq.data.key)
      fun r => { r with is_finished := true, num_rows := num_rows }
    (.ok (),
     { sq with data := { sq.data with is_finished := true, num_rows := num_rows } },
     up.1)

/-- `SearchQuery.is_finished`: `self.data["is_finished"] is True`. -/
def SearchQuery.is_finished (sq : SQ) : Bool := sq.data.is_finished

/-- `SearchQuery.get_parameters`: `json.loads` of the stored parameter text,
with `JSONDecodeError` recovered into an empty dict. -/
def SearchQuery.get_parameters (sq : SQ) : JVal :=
  match jsonLoads sq.data.parameters with
  | some v => v
  | none => .jobj []

/-- `SearchQuery.check_query_finished`: the verified result-file path when
finished and the file exists, the `"empty_file"` sentinel when finished and
flagged empty in memory, `None` otherwise. -/
def SearchQuery.check_query_finished (env : Env) (sq : SQ) : Option String :=
  if sq.data.is_finished = true ∧ sq.data.result_file ≠ "" ∧
      (env.folder ++ "/" ++ sq.data.result_file) ∈ env.fs then
    some (env.folder ++ "/" ++ sq.data.result_file)
  else if sq.data.is_finished = true ∧ sq.data.is_empty = true then
    some "empty_file"
  else none

/-- `SearchQuery.set_empty`: persist `is_empty=true` to the rows of the record;
the method does not assign to `self.data`, so the in-memory object is
returned unchanged. -/
def SearchQuery.set_empty (sq : SQ) (store : List Row) : SQ × List Row :=
  (sq,
   (updateWhere store (whereQueryKey sq.data.query sq.data.key)
     fun r => { r with is_empty := true }).1)

/-! ## Bridges and sample data used by the theorems -/

/-- Meaning of a parameter value as the JSON document stored for it. -/
def toJVal : PyVal → JVal
  | .pint i => .jint i
  | .pstr s => .jstr s

/-- Meaning of a parameter dict as the JSON document stored for it. -/
def toJDict (p : PyDict) : List (String × JVal) :=
  p.map fun kv => (kv.1, toJVal kv.2)

/-- A plain character: printable ASCII, not a quote, not a backslash.
Such characters survive JSON string escaping verbatim. -/
def plainChar (c : Char) : Bool :=
  32 ≤ c.toNat && c.toNat < 127 && c ≠ '"' && c ≠ '\\'

/-- A string of plain characters. -/
def strPlain (s : String) : Bool := s.data.all plainChar

/-- A parameter value whose string content is plain. -/
def valPlain : PyVal → Bool
  | .pint _ => true
  | .pstr s => strPlain s

/-- A parameter dict whose keys and string values are plain. -/
def paramsPlain (p : PyDict) : Bool :=
  p.all fun kv =>
    strPlain kv.1 &&
      (match kv.2 with
       | .pint _ => true
       | .pstr s => strPlain s)

/-- Numeric value of a decimal digit list (most significant first). -/
def digitsVal (ds : List Char) : Nat :=
  ds.foldl (fun a c => a * 10 + (c.toNat - 48)) 0

/-- The sixteen lowercase hexadecimal characters. -/
def hexChars : List Char :=
  (List.range 16).map hexDigitChar

/-- The parameter dict of the specification scenario. -/
def sampleParams : PyDict :=
  [("board", .pstr "news"), ("min_date", .pint 0), ("max_date", .pint 0)]

/-- Two-entry parameter dicts that are the same mapping in different
insertion orders. -/
def paramsAB : PyDict := [("a", .pint 1), ("b", .pint 2)]

/-- See `paramsAB`. -/
def paramsBA : PyDict := [("b", .pint 2), ("a", .pint 1)]

/-- A sample environment: data folder with no files on disk. -/
def sampleEnv : Env := { folder := "/data", fs := ∅ }

/-- A sample unfinished row. -/
def sampleRow : Row :=
  { key := "k0", query := "some query", parameters := "", result_file := "",
    status := "", timestamp := 7, is_empty := false, is_finished := false }

/-- The in-memory object holding `sampleRow`. -/
def sampleSq : SQ := ⟨"k0", "some query", sampleRow⟩

/-- A sample finished row. -/
def finishedRow : Row :=
  { key := "k1", query := "done query", parameters := "", result_file := "f.csv",
    status := "", timestamp := 7, is_empty := false, is_finished := true,
    num_rows := 3 }

/-- The in-memory object holding `finishedRow`. -/
def finishedSq : SQ := ⟨"k1", "done query", finishedRow⟩

/-- A row whose stored parameter text is not parseable JSON. -/
def corruptRow : Row :=
  { key := "k2", query := "corrupt", parameters := "not json at all",
    result_file := "", status := "", timestamp := 7, is_empty := false,
    is_finished := false }

/-- The in-memory object holding `corruptRow`. -/
def corruptSq : SQ := ⟨"k2", "corrupt", corruptRow⟩

/-- The row produced by resolve-or-create for the scenario query
`"climate change"` with `sampleParams` on an empty store and empty disk
(key and file name spelled out concretely). -/
def c4Row : Row :=
  { key := "9a3bbfee95ecea24b3f2dc2666da972a", query := "climate change",
    parameters := "\x7b\"board\": \"news\", \"min_date\": 0, \"max_date\": 0\x7d",
    result_file := "climate-change-9a3bbfee95ecea24b3f2dc2666da972a.csv",
    status := "", timestamp := 100, is_empty := false, is_finished := false,
    num_rows := 0, key_parent := "" }

/-- The in-memory object holding `c4Row`. -/
def c4Sq : SQ := ⟨"9a3bbfee95ecea24b3f2dc2666da972a", "climate change", c4Row⟩

/-! ## Helper lemmas about the store operations -/

/-- A row of the updated table comes from a row of the old table. -/
lemma mem_updateWhere {store : List Row} {pred : Row → Bool} {f : Row → Row}
    {r : Row} (h : r ∈ (updateWhere store pred f).1) :
    ∃ r₀ ∈ store, r = if pred r₀ then f r₀ else r₀ := by
  simp only [updateWhere, List.mem_map] at h
  obtain ⟨r₀, hr₀, hre⟩ := h
  exact ⟨r₀, hr₀, hre.symm⟩

/-- Updating rows behind a predicate the update preserves keeps `find?`
pointed at the image of the originally found row. -/
lemma find?_updateWhere_none {store : List Row} {p pred : Row → Bool}
    {f : Row → Row} (h : store.find? p = none) (hpf : ∀ r, p (f r) = p r) :
    (updateWhere store pred f).1.find? p = none := by
  rw [List.find?_eq_none] at h ⊢
  intro x hx
  obtain ⟨r₀, hr₀, hre⟩ := mem_updateWhere hx
  subst hre
  split
  · simpa [hpf] using h r₀ hr₀
  · exact h r₀ hr₀

/-- `find?` over an appended singleton when the front has no match. -/
lemma find?_append_singleton {store : List Row} {p : Row → Bool} {r : Row}
    (h : store.find? p = none) :
    (store ++ [r]).find? p = if p r then some r else none := by
  induction store with
  | nil => cases hp : p r <;> simp [List.find?, hp]
  | cons a l ih =>
    have h' : l.find? p = none := by
      rw [List.find?_eq_none] at h ⊢
      exact fun x hx => h x (List.mem_cons_of_mem _ hx)
    have ha : p a = false := by
      rw [List.find?_eq_none] at h
      simpa using h a (List.mem_cons_self _ _)
    simp [List.find?_cons, ha, ih h']

/-! ## Helper lemmas about decimal rendering -/

/-- The code of a digit character. -/
lemma natDigitChar_toNat {n : Nat} (h : n < 10) :
    (natDigitChar n).toNat = n + 48 := by
  interval_cases n <;> rfl

/-- Digit characters are between `0` and `9`. -/
lemma natDigitChar_digit {n : Nat} (h : n < 10) :
    '0' ≤ natDigitChar n ∧ natDigitChar n ≤ '9' := by
  interval_cases n <;> exact ⟨by decide, by decide⟩

/-- Every character of a digit list is a decimal digit. -/
lemma natDigitsAux_digits {fuel : Nat} : ∀ {n : Nat} {c : Char},
    c ∈ natDigitsAux fuel n → '0' ≤ c ∧ c ≤ '9' := by
  induction fuel with
  | zero => intro n c h; simp [natDigitsAux] at h
  | succ fuel ih =>
    intro n c h
    rw [natDigitsAux] at h
    split at h
    · rw [List.mem_singleton] at h
      subst h
      exact natDigitChar_digit (by assumption)
    · rcases List.mem_append.mp h with h' | h'
      · exact ih h'
      · rw [List.mem_singleton] at h'
        subst h'
        exact natDigitChar_digit (Nat.mod_lt _ (by omega))

/-- Digit lists are never empty (positive fuel). -/
lemma natDigitsAux_ne_nil {fuel n : Nat} (h : 0 < fuel) :
    natDigitsAux fuel n ≠ [] := by
  match fuel, h with
  | fuel + 1, _ =>
    rw [natDigitsAux]
    split <;> simp

/-- Reading the digit list of `n` back as a number gives `n`. -/
lemma digitsVal_natDigitsAux {fuel : Nat} : ∀ {n : Nat}, n < fuel →
    digitsVal (natDigitsAux fuel n) = n := by
  induction fuel with
  | zero => omega
  | succ fuel ih =>
    intro n hn
    rw [natDigitsAux]
    split
    · next h =>
      simp [digitsVal, natDigitChar_toNat h]
    · next h =>
      have hdiv : n / 10 < fuel := by
        have h1 : n / 10 < n := Nat.div_lt_self (by omega) (by omega)
        omega
      simp only [digitsVal, List.foldl_append] at *
      rw [ih hdiv]
      simp only [List.foldl_cons, List.foldl_nil]
      rw [natDigitChar_toNat (Nat.mod_lt _ (by omega))]
      omega

/-- `natRepr` reads back. -/
lemma digitsVal_natDigits (n : Nat) : digitsVal (natDigits n) = n :=
  digitsVal_natDigitsAux (by omega)

/-- `natRepr` is injective. -/
lemma natRepr_inj {m n : Nat} (h : natRepr m = natRepr n) : m = n := by
  have hd : natDigits m = natDigits n := congrArg String.data h
  have := congrArg digitsVal hd
  rwa [digitsVal_natDigits, digitsVal_natDigits] at this

/-! ## Helper lemmas about candidate paths and the probe loop -/


/-- Two different candidate indices give two different paths. -/
lemma candidatePath_inj (folder file ext : String) :
    Function.Injective (candidatePath folder file ext) := by
  have d0 : (candidatePath folder file ext 0).data
      = (((folder.data ++ ['/']) ++ file.data) ++ ['.']) ++ ext.data := rfl
  have d1 : ∀ k, (candidatePath folder file ext (k + 1)).data
      = (((((folder.data ++ ['/']) ++ file.data) ++ ['-']) ++ natDigits (k + 1)) ++ ['.'])
          ++ ext.data := fun k => rfl
  intro m n h
  match m, n with
  | 0, 0 => rfl
  | 0, n + 1 =>
    exfalso
    have hd := congrArg String.data h
    rw [d0, d1 n] at hd
    have hne : (natDigits (n + 1)).length ≠ 0 := by
      simpa using @natDigitsAux_ne_nil (n + 2) (n + 1) (by omega)
    have hl := congrArg List.length hd
    simp [List.length_append] at hl
    omega
  | m + 1, 0 =>
    exfalso
    have hd := congrArg String.data h
    rw [d0, d1 m] at hd
    have hne : (natDigits (m + 1)).length ≠ 0 := by
      simpa using @natDigitsAux_ne_nil (m + 2) (m + 1) (by omega)
    have hl := congrArg List.length hd
    simp [List.length_append] at hl
    omega
  | m + 1, n + 1 =>
    have hd := congrArg String.data h
    rw [d1 m, d1 n] at hd
    simp only [List.append_assoc, List.singleton_append] at hd
    have h1 := List.append_cancel_left hd
    injection h1 with h1h h1t
    have h2 := List.append_cancel_left h1t
    injection h2 with h2h h2t
    have h3 : natDigits (m + 1) ++ '.' :: ext.data = natDigits (n + 1) ++ '.' :: ext.data := h2t
    have hlen : (natDigits (m + 1)).length = (natDigits (n + 1)).length := by
      have h4 := congrArg List.length h3
      simp [List.length_append] at h4
      omega
    have h5 : natDigits (m + 1) = natDigits (n + 1) := (List.append_inj h3 hlen).1
    have h6 := congrArg digitsVal h5
    rw [digitsVal_natDigits, digitsVal_natDigits] at h6
    omega

/-- Pigeonhole: among the first `fs.card + 1` candidates one is free. -/
lemma exists_free_candidate {fs : Finset String} {cand : Nat → String}
    (hinj : Function.Injective cand) :
    ∃ k, k < fs.card + 1 ∧ cand k ∉ fs := by
  by_contra hcon
  push_neg at hcon
  have hsub : (Finset.range (fs.card + 1)).image cand ⊆ fs := by
    intro x hx
    rw [Finset.mem_image] at hx
    obtain ⟨k, hk, rfl⟩ := hx
    exact hcon k (Finset.mem_range.mp hk)
  have hcard := Finset.card_le_card hsub
  rw [Finset.card_image_of_injective _ hinj, Finset.card_range] at hcard
  omega

/-- The probe loop stops at the first free candidate, provided a free
candidate exists within the fuel. -/
lemma findFreePath_spec {fs : Finset String} {cand : Nat → String} :
    ∀ fuel n, (∃ k, k < fuel ∧ cand (n + k) ∉ fs) →
    ∃ j, findFreePath fs cand n fuel = cand (n + j) ∧ cand (n + j) ∉ fs ∧
      ∀ i < j, cand (n + i) ∈ fs := by
  intro fuel
  induction fuel with
  | zero =>
    rintro n ⟨k, hk, -⟩
    omega
  | succ fuel ih =>
    rintro n ⟨k, hk, hfree⟩
    by_cases hc : cand n ∈ fs
    · have hk0 : k ≠ 0 := by
        rintro rfl
        exact hfree (by simpa using hc)
      obtain ⟨k', rfl⟩ : ∃ k', k = k' + 1 := ⟨k - 1, by omega⟩
      have hfree' : cand (n + 1 + k') ∉ fs := by
        have harith : n + (k' + 1) = n + 1 + k' := by omega
        rwa [harith] at hfree
      obtain ⟨j, hj1, hj2, hj3⟩ := ih (n + 1) ⟨k', by omega, hfree'⟩
      have harith2 : n + 1 + j = n + (j + 1) := by omega
      refine ⟨j + 1, ?_, ?_, ?_⟩
      · rw [findFreePath, if_pos hc, hj1, harith2]
      · rwa [harith2] at hj2
      · intro i hi
        match i with
        | 0 => simpa using hc
        | i + 1 =>
          have := hj3 i (by omega)
          have harith3 : n + 1 + i = n + (i + 1) := by omega
          rwa [harith3] at this
    · exact ⟨0, by rw [findFreePath, if_neg hc, Nat.add_zero], by simpa using hc, by omega⟩

/-- The path chosen by `reserve_result_file` is the first free candidate. -/
lemma chosen_path_spec (fs : Finset String) (folder file ext : String) :
    ∃ j, findFreePath fs (candidatePath folder file ext) 0 (fs.card + 1)
        = candidatePath folder file ext j ∧
      candidatePath folder file ext j ∉ fs ∧
      ∀ i < j, candidatePath folder file ext i ∈ fs := by
  obtain ⟨k, hk, hfree⟩ := @exists_free_candidate fs _ (candidatePath_inj folder file ext)
  obtain ⟨j, h1, h2, h3⟩ := findFreePath_spec (fs.card + 1) 0 ⟨k, hk, by simpa using hfree⟩
  exact ⟨j, by simpa using h1, by simpa using h2, by simpa using h3⟩

/-! ## Helper lemmas about path splitting and slash-free names -/

/-- `pySplitAux` never returns an empty part list. -/
lemma pySplitAux_ne_nil (sep : Char) : ∀ (cs : List Char) (acc : List Char),
    pySplitAux sep cs acc ≠ [] := by
  intro cs
  induction cs with
  | nil => intro acc; simp [pySplitAux]
  | cons c rest ih =>
    intro acc
    rw [pySplitAux]
    split
    · simp
    · exact ih (c :: acc)

/-- Splitting a separator-free tail gives a single part. -/
lemma pySplitAux_no_sep {sep : Char} : ∀ {ys : List Char},
    (∀ c ∈ ys, c ≠ sep) → ∀ acc, pySplitAux sep ys acc = [acc.reverse ++ ys] := by
  intro ys
  induction ys with
  | nil => intro _ acc; simp [pySplitAux]
  | cons c rest ih =>
    intro h acc
    rw [pySplitAux, if_neg (h c (by simp))]
    rw [ih (fun x hx => h x (by simp [hx])) (c :: acc)]
    simp

/-- The last part of a split whose tail after the final separator is
separator-free. -/
lemma pySplitAux_last {sep : Char} {ys : List Char} (hys : ∀ c ∈ ys, c ≠ sep) :
    ∀ (xs acc : List Char) (d : List Char),
    (pySplitAux sep (xs ++ sep :: ys) acc).getLastD d = ys := by
  intro xs
  induction xs with
  | nil =>
    intro acc d
    simp only [List.nil_append]
    rw [pySplitAux, if_pos rfl, pySplitAux_no_sep hys []]
    simp [List.getLastD_cons]
  | cons x xs ih =>
    intro acc d
    simp only [List.cons_append]
    rw [pySplitAux]
    split
    · rw [List.getLastD_cons]
      exact ih [] _
    · exact ih (x :: acc) d

/-- `path.split("/").pop()` recovers the file name appended after the folder. -/
lemma lastSegment_append {s t : String} (ht : ∀ c ∈ t.data, c ≠ '/') :
    lastSegment (s ++ "/" ++ t) = t := by
  have hdata : (s ++ "/" ++ t).data = (s.data ++ ['/']) ++ t.data := rfl
  unfold lastSegment pySplit
  rw [hdata, List.append_assoc, List.singleton_append]
  have h1 : ((pySplitAux '/' (s.data ++ '/' :: t.data) []).map String.mk).getLastD ""
      = String.mk ((pySplitAux '/' (s.data ++ '/' :: t.data) []).getLastD []) :=
    List.getLastD_map String.mk _ []
  rw [h1, pySplitAux_last ht s.data [] []]

/-- Hex digits are among the sixteen hex characters. -/
lemma hexDigitChar_mem {n : Nat} (h : n < 16) : hexDigitChar n ∈ hexChars := by
  interval_cases n <;> decide

/-- Every character of an MD5 hex digest is a hex character. -/
lemma md5hex_chars {s : String} : ∀ c ∈ (md5hex s).data, c ∈ hexChars := by
  intro c hc
  simp only [md5hex, bytesToHex, List.mem_flatten, List.mem_map] at hc
  obtain ⟨l, ⟨b, hb, rfl⟩, hcl⟩ := hc
  simp only [byteHex, List.mem_cons] at hcl
  rcases hcl with rfl | rfl | h
  · exact hexDigitChar_mem (Nat.mod_lt _ (by omega))
  · exact hexDigitChar_mem (Nat.mod_lt _ (by omega))
  · simp at h

/-- Hex characters are not slashes. -/
lemma hexChars_no_slash : ∀ c ∈ hexChars, c ≠ '/' := by decide

/-- Slug characters are not slashes. -/
lemma pySlug_no_slash (q : String) : ∀ c ∈ (pySlug q).data, c ≠ '/' := by
  intro c hc
  simp only [pySlug, List.mem_filter] at hc
  intro hceq
  subst hceq
  simpa [slugChar] using hc.2

/-- Digit characters are not slashes. -/
lemma natDigits_no_slash (n : Nat) : ∀ c ∈ natDigits n, c ≠ '/' := by
  intro c hc hceq
  subst hceq
  have := natDigitsAux_digits hc
  revert this
  decide

/-- A candidate path is the folder, a slash, and the candidate name. -/
lemma candidatePath_decomp (folder file ext : String) (n : Nat) :
    candidatePath folder file ext n = folder ++ "/" ++ candidateName file ext n := by
  unfold candidatePath candidateName
  split <;> simp [String.append_assoc]

/-- Candidate names over slash-free parts are slash-free. -/
lemma candidateName_no_slash {file ext : String}
    (hfile : ∀ c ∈ file.data, c ≠ '/') (hext : ∀ c ∈ ext.data, c ≠ '/')
    (n : Nat) : ∀ c ∈ (candidateName file ext n).data, c ≠ '/' := by
  intro c hc
  unfold candidateName at hc
  split at hc <;> simp only [String.data_append] at hc
  · rcases List.mem_append.mp hc with h | h
    · rcases List.mem_append.mp h with h' | h'
      · exact hfile c h'
      · intro hceq; subst hceq; simpa using h'
    · exact hext c h
  · rcases List.mem_append.mp hc with h | h
    · rcases List.mem_append.mp h with h' | h'
      · rcases List.mem_append.mp h' with h'' | h''
        · rcases List.mem_append.mp h'' with h3 | h3
          · exact hfile c h3
          · intro hceq; subst hceq; simpa using h3
        · exact natDigits_no_slash n c h''
      · intro hceq; subst hceq; simpa using h'
    · exact hext c h

/-- Characterization of a successful `reserve_result_file` call: the method
returns whether the store write matched a row, stores the name of the first
free candidate path on the object, and performs the corresponding store
update. -/
lemma reserve_result_file_spec (env : Env) (sq : SQ) (store : List Row)
    (ext : String) (hfin : sq.data.is_finished = false) :
    ∃ n,
      candidatePath env.folder (pySlug sq.data.query ++ "-" ++ sq.data.key)
        (pyLower ext) n ∉ env.fs ∧
      (∀ m < n, candidatePath env.folder (pySlug sq.data.query ++ "-" ++ sq.data.key)
        (pyLower ext) m ∈ env.fs) ∧
      SearchQuery.reserve_result_file env sq store ext =
        (.ok (decide (0 < (store.filter (whereQueryKey sq.data.query sq.data.key)).length)),
         { sq with data := { sq.data with result_file := lastSegment (candidatePath env.folder (pySlug sq.data.query ++ "-" ++ sq.data.key) (pyLower ext) n) } },
         (updateWhere store (whereQueryKey sq.data.query sq.data.key) (fun r => { r with result_file := lastSegment (candidatePath env.folder (pySlug sq.data.query ++ "-" ++ sq.data.key) (pyLower ext) n) })).1) := by
  obtain ⟨n, h1, h2, h3⟩ := chosen_path_spec env.fs env.folder
    (pySlug sq.data.query ++ "-" ++ sq.data.key) (pyLower ext)
  refine ⟨n, h2, h3, ?_⟩
  simp only [SearchQuery.reserve_result_file, hfin, Bool.false_eq_true, if_false]
  rw [h1]
  rfl

/-- Key and query of the in-memory object are untouched by reservation. -/
lemma reserve_preserves_key (env : Env) (sq : SQ) (store : List Row) (ext : String) :
    (SearchQuery.reserve_result_file env sq store ext).2.1.key = sq.key ∧
    (SearchQuery.reserve_result_file env sq store ext).2.1.query = sq.query := by
  rw [SearchQuery.reserve_result_file]
  split <;> simp

/-- Resolve-or-create always succeeds and keys the record by `get_key`. -/
lemma init_by_query_ok (env : Env) (store : List Row) (q : String) (p : PyDict)
    (parent : Option String) (ext : String) (now : Nat) :
    ∃ sq st, SearchQuery.init env store (some q) (some p) none parent ext now
      = (.ok sq, st) ∧ sq.key = get_key q p ∧ sq.query = q := by
  simp only [SearchQuery.init]
  cases h : findByKeyQuery store (get_key q p) q with
  | some cur =>
    refine ⟨⟨get_key q p, q, cur⟩, store, ?_, rfl, rfl⟩
    simp [h]
  | none =>
    simp only [h]
    refine ⟨_, _, rfl, ?_, ?_⟩
    · exact (reserve_preserves_key _ _ _ _).1
    · exact (reserve_preserves_key _ _ _ _).2

/-- C3: calling `finish()` or `reserve_result_file()` on a record whose
`is_finished` is already true raises the already-finished error
(a `RuntimeError` in the source, the `AlreadyFinishedError` of the spec
taxonomy) and leaves both the in-memory record and the store unchanged. -/
theorem claim_C3_already_finished_errors (env : Env) (sq : SQ) (store : List Row)
    (n : Int) (ext : String) (h : sq.data.is_finished = true) :
    SearchQuery.finish sq store n =
      (.error (.runtimeError "Cannot finish a finished query again"), sq, store) ∧
    SearchQuery.reserve_result_file env sq store ext =
      (.error (.runtimeError "Cannot reserve results file for a finished query"),
       sq, store) := by
  constructor
  · rw [SearchQuery.finish, if_pos h]
  · rw [SearchQuery.reserve_result_file, if_pos h]

/-- Witness for C3 at a concrete finished record. -/
theorem claim_C3_witness :
    SearchQuery.finish finishedSq [] 0 =
      (.error (.runtimeError "Cannot finish a finished query again"), finishedSq, []) ∧
    SearchQuery.reserve_result_file sampleEnv finishedSq [] "csv" =
      (.error (.runtimeError "Cannot reserve results file for a finished query"),
       finishedSq, []) :=
  claim_C3_already_finished_errors sampleEnv finishedSq [] 0 "csv" rfl

/-- C8: resolving by key returns the stored row (key and query loaded from
the store) when a row matches, and raises the not-found error (a `TypeError`
in the source, the `NotFoundError` of the spec taxonomy) when none does. -/
theorem claim_C8_resolve_by_key (env : Env) (store : List Row) (k : String)
    (parent : Option String) (ext : String) (now : Nat) :
    (findByKey store k = none →
      SearchQuery.init env store none none (some k) parent ext now =
        (.error (.typeError
          "SearchQuery() requires a valid query key for its key argument"), store)) ∧
    (∀ r, findByKey store k = some r →
      SearchQuery.init env store none none (some k) parent ext now
        = (.ok ⟨k, r.query, r⟩, store)) := by
  constructor
  · intro h
    simp [SearchQuery.init, h]
  · intro r h
    simp [SearchQuery.init, h]

/-- Witness for C8: an unknown key errors, a known key loads the row. -/
theorem claim_C8_witness :
    SearchQuery.init sampleEnv [sampleRow] none none (some "nope") none "csv" 0 =
      (.error (.typeError
        "SearchQuery() requires a valid query key for its key argument"), [sampleRow]) ∧
    SearchQuery.init sampleEnv [sampleRow] none none (some "k0") none "csv" 0 =
      (.ok ⟨"k0", sampleRow.query, sampleRow⟩, [sampleRow]) :=
  ⟨(claim_C8_resolve_by_key sampleEnv [sampleRow] "nope" none "csv" 0).1 rfl,
   (claim_C8_resolve_by_key sampleEnv [sampleRow] "k0" none "csv" 0).2 sampleRow rfl⟩

/-- C9: construction keys a record by `get_key query parameters` alone; the
`parent` argument (and the post-processor type, which is not even an input
of key generation) never enters the hash, so identical query label and
parameters give identical keys under different parents, environments and
extensions. -/
theorem claim_C9_key_ignores_parent_and_type (env₁ env₂ : Env)
    (store₁ store₂ : List Row) (q : String) (p : PyDict)
    (par₁ par₂ : Option String) (ext₁ ext₂ : String) (now₁ now₂ : Nat) :
    ∃ sq₁ sq₂ st₁ st₂,
      SearchQuery.init env₁ store₁ (some q) (some p) none par₁ ext₁ now₁
        = (.ok sq₁, st₁) ∧
      SearchQuery.init env₂ store₂ (some q) (some p) none par₂ ext₂ now₂
        = (.ok sq₂, st₂) ∧
      sq₁.key = get_key q p ∧ sq₂.key = get_key q p ∧ sq₁.key = sq₂.key := by
  obtain ⟨sq₁, st₁, h₁, hk₁, -⟩ := init_by_query_ok env₁ store₁ q p par₁ ext₁ now₁
  obtain ⟨sq₂, st₂, h₂, hk₂, -⟩ := init_by_query_ok env₂ store₂ q p par₂ ext₂ now₂
  exact ⟨sq₁, sq₂, st₁, st₂, h₁, h₂, hk₁, hk₂, hk₁.trans hk₂.symm⟩

/-- C2: `finish(row_count)` on an unfinished record succeeds, persists
`is_finished=true` and `num_rows=row_count` on every row of the record in
the store (leaving unrelated rows in place), and updates the in-memory
record so that `is_finished()` is true and `num_rows` is the given count. -/
theorem claim_C2_finish_persists (sq : SQ) (store : List Row) (n : Int)
    (h : sq.data.is_finished = false) :
    (SearchQuery.finish sq store n).1 = .ok () ∧
    (SearchQuery.finish sq store n).2.1.data.is_finished = true ∧
    (SearchQuery.finish sq store n).2.1.data.num_rows = n ∧
    SearchQuery.is_finished (SearchQuery.finish sq store n).2.1 = true ∧
    (∀ r ∈ (SearchQuery.finish sq store n).2.2,
      r.query = sq.data.query → r.key = sq.data.key →
      r.is_finished = true ∧ r.num_rows = n) ∧
    (∀ r ∈ store, ¬(r.query = sq.data.query ∧ r.key = sq.data.key) →
      r ∈ (SearchQuery.finish sq store n).2.2) := by
  simp only [SearchQuery.finish, h, Bool.false_eq_true, if_false]
  refine ⟨trivial, trivial, trivial, rfl, ?_, ?_⟩
  · intro r hr hq hk
    obtain ⟨r₀, hr₀, hre⟩ := mem_updateWhere hr
    by_cases hp : whereQueryKey sq.data.query sq.data.key r₀
    · rw [if_pos hp] at hre
      subst hre
      exact ⟨rfl, rfl⟩
    · rw [if_neg hp] at hre
      subst hre
      exact absurd (by simp [whereQueryKey, hq, hk]) hp
  · intro r hr hnot
    have hp : whereQueryKey sq.data.query sq.data.key r = false := by
      by_contra hcon
      rw [Bool.not_eq_false, whereQueryKey, Bool.and_eq_true, beq_iff_eq, beq_iff_eq] at hcon
      exact hnot ⟨hcon.1, hcon.2⟩
    simp only [updateWhere, List.mem_map]
    exact ⟨r, hr, by simp [hp]⟩

/-- Witness for C2 at a concrete unfinished record. -/
theorem claim_C2_witness :
    (SearchQuery.finish sampleSq [sampleRow] 5).1 = .ok () ∧
    (SearchQuery.finish sampleSq [sampleRow] 5).2.1.data.is_finished = true ∧
    (SearchQuery.finish sampleSq [sampleRow] 5).2.1.data.num_rows = 5 ∧
    SearchQuery.is_finished (SearchQuery.finish sampleSq [sampleRow] 5).2.1 = true ∧
    (∀ r ∈ (SearchQuery.finish sampleSq [sampleRow] 5).2.2,
      r.query = sampleSq.data.query → r.key = sampleSq.data.key →
      r.is_finished = true ∧ r.num_rows = 5) ∧
    (∀ r ∈ [sampleRow], ¬(r.query = sampleSq.data.query ∧ r.key = sampleSq.data.key) →
      r ∈ (SearchQuery.finish sampleSq [sampleRow] 5).2.2) :=
  claim_C2_finish_persists sampleSq [sampleRow] 5 rfl

/-- `find?` after an update whose function preserves the predicate returns
the image of the originally found row. -/
lemma find?_updateWhere {p pred : Row → Bool} {f : Row → Row}
    (hpf : ∀ r, p (f r) = p r) :
    ∀ (l : List Row) {x : Row}, l.find? p = some x →
    (updateWhere l pred f).1.find? p = some (if pred x then f x else x) := by
  intro l
  induction l with
  | nil => intro x h; simp [List.find?] at h
  | cons a l ih =>
    intro x h
    by_cases hpa : p a = true
    · rw [List.find?_cons_of_pos _ hpa] at h
      injection h with hxa
      subst hxa
      have hga : p (if pred a then f a else a) = true := by
        split
        · rw [hpf]; exact hpa
        · exact hpa
      simp only [updateWhere, List.map_cons]
      rw [List.find?_cons_of_pos _ hga]
    · have hpa' : p a = false := by simpa using hpa
      rw [List.find?_cons_of_neg _ (by simp [hpa'])] at h
      have hga : p (if pred a then f a else a) = false := by
        split
        · rw [hpf]; exact hpa'
        · exact hpa'
      simp only [updateWhere, List.map_cons]
      rw [List.find?_cons_of_neg _ (by simp [hga])]
      have hres := ih h
      simpa [updateWhere] using hres

/-- After inserting the fresh row and updating its result file, the
key-and-query lookup finds exactly the updated fresh row. -/
lemma fresh_row_found {store : List Row} {k q : String}
    (h : findByKeyQuery store k q = none) (row : Row) (hk : row.key = k)
    (hq : row.query = q) (fname : String) :
    findByKeyQuery (updateWhere (store ++ [row]) (whereQueryKey q k)
      (fun r => { r with result_file := fname })).1 k q =
    some { row with result_file := fname } := by
  have hpf : ∀ r : Row,
      (({ r with result_file := fname } : Row).key == k &&
        ({ r with result_file := fname } : Row).query == q)
      = (r.key == k && r.query == q) := fun r => rfl
  have h' : store.find? (fun r => r.key == k && r.query == q) = none := h
  have happ : (store ++ [row]).find? (fun r => r.key == k && r.query == q)
      = some row := by
    rw [find?_append_singleton h', if_pos (by simp [hk, hq])]
  have hfin := @find?_updateWhere _ (whereQueryKey q k) _ hpf (store ++ [row]) _ happ
  rw [if_pos (by simp [whereQueryKey, hk, hq])] at hfin
  exact hfin

/-- C1: resolve-or-create is idempotent.  A second construction with the
same query and parameters yields a record with the same key, leaves the
store exactly as the first call left it (no second row is inserted), and
loads its data from the stored row (the stored fields supersede the freshly
supplied arguments). -/
theorem claim_C1_resolve_or_create_idempotent (env : Env) (store : List Row)
    (q : String) (p : PyDict) (parent : Option String) (ext : String)
    (now₁ now₂ : Nat) :
    ∃ sq₁ sq₂ st₁,
      SearchQuery.init env store (some q) (some p) none parent ext now₁
        = (.ok sq₁, st₁) ∧
      SearchQuery.init env st₁ (some q) (some p) none parent ext now₂
        = (.ok sq₂, st₁) ∧
      sq₂.key = sq₁.key ∧
      findByKeyQuery st₁ sq₁.key q = some sq₂.data := by
  cases h : findByKeyQuery store (get_key q p) q with
  | some cur =>
    refine ⟨⟨get_key q p, q, cur⟩, ⟨get_key q p, q, cur⟩, store, ?_, ?_, rfl, ?_⟩
    · simp [SearchQuery.init, h]
    · simp [SearchQuery.init, h]
    · exact h
  | none =>
    obtain ⟨n, -, -, hres⟩ := reserve_result_file_spec env
      ⟨get_key q p, q, freshRow q p parent now₁⟩
      (store ++ [freshRow q p parent now₁]) ext rfl
    have hfound := fresh_row_found h (freshRow q p parent now₁) rfl rfl
      (lastSegment (candidatePath env.folder
        (pySlug q ++ "-" ++ get_key q p) (pyLower ext) n))
    refine ⟨(SearchQuery.reserve_result_file env
        ⟨get_key q p, q, freshRow q p parent now₁⟩
        (store ++ [freshRow q p parent now₁]) ext).2.1,
      ⟨get_key q p, q, { freshRow q p parent now₁ with result_file := lastSegment (candidatePath env.folder (pySlug q ++ "-" ++ get_key q p) (pyLower ext) n) }⟩,
      (SearchQuery.reserve_result_file env
        ⟨get_key q p, q, freshRow q p parent now₁⟩
        (store ++ [freshRow q p parent now₁]) ext).2.2, ?_, ?_, ?_, ?_⟩
    · simp only [SearchQuery.init, h]
    · rw [hres]
      simp only [SearchQuery.init]
      simp only [freshRow] at hfound ⊢
      rw [hfound]
    · rw [hres]
    · rw [hres]
      simp only [freshRow] at hfound ⊢
      exact hfound

/-! ## Helper lemmas about the digest shape -/

/-- An MD5 digest is sixteen bytes. -/
lemma md5Bytes_length (msg : List Nat) : (md5Bytes msg).length = 16 := by
  rcases hst : (chunks64 (md5Pad msg)).foldl md5Chunk
    (1732584193, 4023233417, 2562383102, 271733878) with ⟨a, b, c, d⟩
  rw [md5Bytes, hst]
  rfl

/-- Hex rendering doubles the length. -/
lemma bytesToHex_length (bs : List Nat) : (bytesToHex bs).length = 2 * bs.length := by
  induction bs with
  | nil => rfl
  | cons b t ih =>
    have hstep : (bytesToHex (b :: t)).length = 2 + (bytesToHex t).length := by
      simp [bytesToHex, String.length, byteHex]
      omega
    rw [hstep, ih]
    simp [List.length_cons]
    omega

/-- An MD5 hex digest has 32 characters. -/
lemma md5hex_length (s : String) : (md5hex s).length = 32 := by
  rw [md5hex, bytesToHex_length, md5Bytes_length]

/-- C6 counterexample: the textual representation of a Python dict depends
on insertion order, so the same two-entry mapping supplied in the two
different orders produces two different keys (the dicts are permutations of
one another, yet the keys differ). -/
theorem claim_C6_counterexample :
    paramsAB.Perm paramsBA ∧ get_key "q" paramsAB ≠ get_key "q" paramsBA := by
  constructor
  · decide
  · decide

/-- C6 (amended): `get_key` returns a 32-character string of hexadecimal
characters, computed as the MD5 hash of the concatenation of the textual
representation of the parameters and the query text; the key depends on the
parameters only through that textual representation, so identical
`(query_text, parameters)` in the same insertion order always yield the
same key — but a different ordering changes the representation and may
change the key. -/
theorem claim_C6_get_key_shape (q : String) (p : PyDict) :
    (get_key q p).length = 32 ∧
    (∀ c ∈ (get_key q p).data, c ∈ hexChars) ∧
    get_key q p = md5hex (pyReprDict p ++ q) ∧
    (∀ p₂ : PyDict, pyReprDict p₂ = pyReprDict p → get_key q p₂ = get_key q p) := by
  refine ⟨md5hex_length _, md5hex_chars, rfl, ?_⟩
  intro p₂ hrepr
  rw [get_key, get_key, hrepr]

/-- Witness for C6 at the scenario parameters. -/
theorem claim_C6_witness :
    (get_key "climate change" sampleParams).length = 32 ∧
    (∀ c ∈ (get_key "climate change" sampleParams).data, c ∈ hexChars) ∧
    get_key "climate change" sampleParams
      = md5hex (pyReprDict sampleParams ++ "climate change") ∧
    get_key "climate change" sampleParams = get_key "climate change" sampleParams :=
  ⟨(claim_C6_get_key_shape "climate change" sampleParams).1,
   (claim_C6_get_key_shape "climate change" sampleParams).2.1,
   (claim_C6_get_key_shape "climate change" sampleParams).2.2.1,
   (claim_C6_get_key_shape "climate change" sampleParams).2.2.2 sampleParams rfl⟩

/-- The file part (slug plus key) of a reservation is slash-free when the
key is. -/
lemma slug_key_no_slash {q k : String} (hkey : ∀ c ∈ k.data, c ≠ '/') :
    ∀ c ∈ (pySlug q ++ "-" ++ k).data, c ≠ '/' := by
  intro c hc
  simp only [String.data_append] at hc
  rcases List.mem_append.mp hc with h | h
  · rcases List.mem_append.mp h with h' | h'
    · exact pySlug_no_slash q c h'
    · intro hceq; subst hceq; simpa using h'
  · exact hkey c h

/-- C5 counterexample: `reserve_result_file` lowercases the extension, so
with extension `"CSV"` the stored name ends in `".csv"`, not `".CSV"` as the
claim would have it. -/
theorem claim_C5_counterexample :
    (SearchQuery.reserve_result_file sampleEnv sampleSq [sampleRow] "CSV").2.1.data.result_file
      ≠ pySlug sampleSq.data.query ++ "-" ++ sampleSq.data.key ++ "." ++ "CSV" ∧
    (SearchQuery.reserve_result_file sampleEnv sampleSq [sampleRow] "CSV").2.1.data.result_file
      = pySlug sampleSq.data.query ++ "-" ++ sampleSq.data.key ++ "." ++ "csv" := by
  constructor
  · decide
  · decide

/-- C5 (amended): on an unfinished record, reservation chooses the name
`slug-key.ext` with the extension lowercased, appending `-1`, `-2`, ... only
while the candidate path names an existing file; the chosen path is free at
call time, the chosen name is persisted in memory and on every matching
store row, and the call returns true iff the store write matched at least
one row. -/
theorem claim_C5_reserve_names (env : Env) (sq : SQ) (store : List Row)
    (ext : String) (hfin : sq.data.is_finished = false)
    (hkey : ∀ c ∈ sq.data.key.data, c ≠ '/')
    (hext : ∀ c ∈ (pyLower ext).data, c ≠ '/') :
    ∃ n : Nat,
      (SearchQuery.reserve_result_file env sq store ext).1
        = .ok (decide (0 < (store.filter (whereQueryKey sq.data.query sq.data.key)).length)) ∧
      (SearchQuery.reserve_result_file env sq store ext).2.1.data.result_file
        = candidateName (pySlug sq.data.query ++ "-" ++ sq.data.key) (pyLower ext) n ∧
      (∀ m < n, candidatePath env.folder (pySlug sq.data.query ++ "-" ++ sq.data.key)
        (pyLower ext) m ∈ env.fs) ∧
      candidatePath env.folder (pySlug sq.data.query ++ "-" ++ sq.data.key)
        (pyLower ext) n ∉ env.fs ∧
      env.folder ++ "/" ++
        (SearchQuery.reserve_result_file env sq store ext).2.1.data.result_file ∉ env.fs ∧
      (∀ r ∈ (SearchQuery.reserve_result_file env sq store ext).2.2,
        r.query = sq.data.query → r.key = sq.data.key →
        r.result_file = candidateName (pySlug sq.data.query ++ "-" ++ sq.data.key)
          (pyLower ext) n) := by
  obtain ⟨n, hfree, hbusy, hres⟩ := reserve_result_file_spec env sq store ext hfin
  have hname : lastSegment (candidatePath env.folder
      (pySlug sq.data.query ++ "-" ++ sq.data.key) (pyLower ext) n)
      = candidateName (pySlug sq.data.query ++ "-" ++ sq.data.key) (pyLower ext) n := by
    rw [candidatePath_decomp]
    exact lastSegment_append (candidateName_no_slash (slug_key_no_slash hkey) hext n)
  refine ⟨n, ?_, ?_, hbusy, hfree, ?_, ?_⟩
  · rw [hres]
  · rw [hres]
    exact hname
  · rw [hres]
    simp only
    rw [hname, ← candidatePath_decomp]
    exact hfree
  · rw [hres]
    intro r hr hq hk
    obtain ⟨r₀, hr₀, hre⟩ := mem_updateWhere hr
    by_cases hp : whereQueryKey sq.data.query sq.data.key r₀
    · rw [if_pos hp] at hre
      subst hre
      exact hname
    · rw [if_neg hp] at hre
      subst hre
      exact absurd (by simp [whereQueryKey, hq, hk]) hp

/-- Witness for C5: with the bare candidate pre-created on disk the second
candidate (suffix `-1`) is chosen, free, and persisted. -/
theorem claim_C5_witness :
    ∃ n : Nat,
      (SearchQuery.reserve_result_file ⟨"/data", {"/data/some-query-k0.csv"}⟩
        sampleSq [sampleRow] "csv").1
        = .ok (decide (0 < ([sampleRow].filter
            (whereQueryKey sampleSq.data.query sampleSq.data.key)).length)) ∧
      (SearchQuery.reserve_result_file ⟨"/data", {"/data/some-query-k0.csv"}⟩
        sampleSq [sampleRow] "csv").2.1.data.result_file
        = candidateName (pySlug sampleSq.data.query ++ "-" ++ sampleSq.data.key)
            (pyLower "csv") n ∧
      (∀ m < n, candidatePath "/data" (pySlug sampleSq.data.query ++ "-" ++ sampleSq.data.key)
        (pyLower "csv") m ∈ ({"/data/some-query-k0.csv"} : Finset String)) ∧
      candidatePath "/data" (pySlug sampleSq.data.query ++ "-" ++ sampleSq.data.key)
        (pyLower "csv") n ∉ ({"/data/some-query-k0.csv"} : Finset String) ∧
      "/data" ++ "/" ++
        (SearchQuery.reserve_result_file ⟨"/data", {"/data/some-query-k0.csv"}⟩
          sampleSq [sampleRow] "csv").2.1.data.result_file
          ∉ ({"/data/some-query-k0.csv"} : Finset String) ∧
      (∀ r ∈ (SearchQuery.reserve_result_file ⟨"/data", {"/data/some-query-k0.csv"}⟩
          sampleSq [sampleRow] "csv").2.2,
        r.query = sampleSq.data.query → r.key = sampleSq.data.key →
        r.result_file = candidateName (pySlug sampleSq.data.query ++ "-" ++ sampleSq.data.key)
          (pyLower "csv") n) :=
  claim_C5_reserve_names ⟨"/data", {"/data/some-query-k0.csv"}⟩ sampleSq [sampleRow]
    "csv" rfl (by decide) (by decide)

/-- Content keys contain no slash (they are lowercase hex). -/
lemma get_key_no_slash (q : String) (p : PyDict) :
    ∀ c ∈ (get_key q p).data, c ≠ '/' :=
  fun c hc => hexChars_no_slash c (md5hex_chars c hc)

/-- A key-only miss implies a key-and-query miss. -/
lemma findByKeyQuery_none_of_findByKey_none {store : List Row} {k : String}
    (h : findByKey store k = none) (q : String) :
    findByKeyQuery store k q = none := by
  rw [findByKey, List.find?_eq_none] at h
  rw [findByKeyQuery, List.find?_eq_none]
  intro x hx
  simp only [Bool.and_eq_true, not_and]
  intro hk
  exact absurd hk (h x hx)

/-- Fresh construction, fully described: when no stored row matches the key
and query, `__init__` returns the fresh record with the first free candidate
name as its result file, the store extended by exactly that row, and the
path of the reserved file does not exist on disk. -/
lemma init_fresh_spec (env : Env) (store : List Row) (q : String) (p : PyDict)
    (parent : Option String) (ext : String) (now : Nat)
    (hfresh : findByKeyQuery store (get_key q p) q = none)
    (hext : ∀ c ∈ (pyLower ext).data, c ≠ '/') :
    ∃ n : Nat,
      SearchQuery.init env store (some q) (some p) none parent ext now
        = (.ok ⟨get_key q p, q, { freshRow q p parent now with result_file := candidateName (pySlug q ++ "-" ++ get_key q p) (pyLower ext) n }⟩,
           (updateWhere (store ++ [freshRow q p parent now]) (whereQueryKey q (get_key q p)) (fun r => { r with result_file := candidateName (pySlug q ++ "-" ++ get_key q p) (pyLower ext) n })).1) ∧
      env.folder ++ "/" ++ candidateName (pySlug q ++ "-" ++ get_key q p) (pyLower ext) n ∉ env.fs := by
  obtain ⟨n, hfree, -, hres⟩ := reserve_result_file_spec env
    ⟨get_key q p, q, freshRow q p parent now⟩
    (store ++ [freshRow q p parent now]) ext rfl
  have hname : lastSegment (candidatePath env.folder
      (pySlug q ++ "-" ++ get_key q p) (pyLower ext) n)
      = candidateName (pySlug q ++ "-" ++ get_key q p) (pyLower ext) n := by
    rw [candidatePath_decomp]
    exact lastSegment_append
      (candidateName_no_slash (slug_key_no_slash (get_key_no_slash q p)) hext n)
  refine ⟨n, ?_, ?_⟩
  · simp only [SearchQuery.init, hfresh]
    rw [hres]
    simp only [freshRow]
    rw [hname]
  · rw [← candidatePath_decomp]
    simpa using hfree

/-- C10: `set_empty` writes `is_empty=true` to the store only.  In general
the method returns the in-memory object unchanged; and in the
create/finish(0)/set_empty scenario the object still has `is_empty = false`,
`check_query_finished` on it still answers `none` (not the empty-file
sentinel), while every matching row in the store now carries
`is_empty = true`. -/
theorem claim_C10_set_empty_store_only (env : Env) (store : List Row)
    (q : String) (p : PyDict) (parent : Option String) (ext : String) (now : Nat)
    (hfresh : findByKeyQuery store (get_key q p) q = none)
    (hext : ∀ c ∈ (pyLower ext).data, c ≠ '/') :
    (∀ (sq : SQ) (st : List Row), (SearchQuery.set_empty sq st).1 = sq) ∧
    ∃ sq₁ st₁,
      SearchQuery.init env store (some q) (some p) none parent ext now
        = (.ok sq₁, st₁) ∧
      (SearchQuery.set_empty (SearchQuery.finish sq₁ st₁ 0).2.1
        (SearchQuery.finish sq₁ st₁ 0).2.2).1 = (SearchQuery.finish sq₁ st₁ 0).2.1 ∧
      (SearchQuery.set_empty (SearchQuery.finish sq₁ st₁ 0).2.1
        (SearchQuery.finish sq₁ st₁ 0).2.2).1.data.is_empty = false ∧
      SearchQuery.check_query_finished env
        (SearchQuery.set_empty (SearchQuery.finish sq₁ st₁ 0).2.1
          (SearchQuery.finish sq₁ st₁ 0).2.2).1 = none ∧
      (∀ r ∈ (SearchQuery.set_empty (SearchQuery.finish sq₁ st₁ 0).2.1
          (SearchQuery.finish sq₁ st₁ 0).2.2).2,
        r.query = q → r.key = sq₁.key → r.is_empty = true) := by
  refine ⟨fun sq st => rfl, ?_⟩
  obtain ⟨n, hinit, hnotin⟩ := init_fresh_spec env store q p parent ext now hfresh hext
  refine ⟨_, _, hinit, ?_, ?_, ?_, ?_⟩
  · rfl
  · rfl
  · have hfin_eq : SearchQuery.finish
        ⟨get_key q p, q, { freshRow q p parent now with result_file := candidateName (pySlug q ++ "-" ++ get_key q p) (pyLower ext) n }⟩
        (updateWhere (store ++ [freshRow q p parent now]) (whereQueryKey q (get_key q p)) (fun r => { r with result_file := candidateName (pySlug q ++ "-" ++ get_key q p) (pyLower ext) n })).1 0
        = (.ok (),
           ⟨get_key q p, q, { freshRow q p parent now with result_file := candidateName (pySlug q ++ "-" ++ get_key q p) (pyLower ext) n, is_finished := true, num_rows := 0 }⟩,
           (updateWhere (updateWhere (store ++ [freshRow q p parent now]) (whereQueryKey q (get_key q p)) (fun r => { r with result_file := candidateName (pySlug q ++ "-" ++ get_key q p) (pyLower ext) n })).1 (whereQueryKey q (get_key q p)) (fun r => { r with is_finished := true, num_rows := 0 })).1) := by
      rw [SearchQuery.finish, if_neg (by simp [freshRow])]
      rfl
    rw [hfin_eq]
    show SearchQuery.check_query_finished env
      ⟨get_key q p, q, { freshRow q p parent now with result_file := candidateName (pySlug q ++ "-" ++ get_key q p) (pyLower ext) n, is_finished := true, num_rows := 0 }⟩ = none
    rw [SearchQuery.check_query_finished]
    rw [if_neg, if_neg]
    · intro hcon
      exact absurd hcon.2 (by simp [freshRow])
    · intro hcon
      exact hnotin hcon.2.2
  · intro r hr hq hk
    obtain ⟨r₀, hr₀, hre⟩ := mem_updateWhere hr
    split at hre
    · subst hre
      rfl
    · next hp =>
      subst hre
      refine absurd ?_ hp
      simp only [whereQueryKey, Bool.and_eq_true, beq_iff_eq]
      exact ⟨hq.trans rfl, hk.trans rfl⟩

/-- Witness for C10 at the scenario record. -/
theorem claim_C10_witness :
    (∀ (sq : SQ) (st : List Row), (SearchQuery.set_empty sq st).1 = sq) ∧
    ∃ sq₁ st₁,
      SearchQuery.init sampleEnv [] (some "climate change") (some sampleParams)
          none none "csv" 100
        = (.ok sq₁, st₁) ∧
      (SearchQuery.set_empty (SearchQuery.finish sq₁ st₁ 0).2.1
        (SearchQuery.finish sq₁ st₁ 0).2.2).1 = (SearchQuery.finish sq₁ st₁ 0).2.1 ∧
      (SearchQuery.set_empty (SearchQuery.finish sq₁ st₁ 0).2.1
        (SearchQuery.finish sq₁ st₁ 0).2.2).1.data.is_empty = false ∧
      SearchQuery.check_query_finished sampleEnv
        (SearchQuery.set_empty (SearchQuery.finish sq₁ st₁ 0).2.1
          (SearchQuery.finish sq₁ st₁ 0).2.2).1 = none ∧
      (∀ r ∈ (SearchQuery.set_empty (SearchQuery.finish sq₁ st₁ 0).2.1
          (SearchQuery.finish sq₁ st₁ 0).2.2).2,
        r.query = "climate change" → r.key = sq₁.key → r.is_empty = true) :=
  claim_C10_set_empty_store_only sampleEnv [] "climate change" sampleParams
    none "csv" 100 rfl (by decide)

set_option maxRecDepth 1000000 in
/-- C4 counterexample: on the in-memory record itself, `check_query_finished`
after `finish(0)` plus `set_empty()` answers `none`, not the empty-file
sentinel, because `set_empty` does not update the in-memory state. -/
theorem claim_C4_counterexample :
    SearchQuery.init sampleEnv [] (some "climate change") (some sampleParams)
        none none "csv" 100 = (.ok c4Sq, [c4Row]) ∧
    SearchQuery.check_query_finished sampleEnv
      (SearchQuery.set_empty (SearchQuery.finish c4Sq [c4Row] 0).2.1
        (SearchQuery.finish c4Sq [c4Row] 0).2.2).1 = none ∧
    SearchQuery.check_query_finished sampleEnv
      (SearchQuery.set_empty (SearchQuery.finish c4Sq [c4Row] 0).2.1
        (SearchQuery.finish c4Sq [c4Row] 0).2.2).1 ≠ some "empty_file" := by
  refine ⟨rfl, rfl, ?_⟩
  intro hcon
  exact Option.noConfusion hcon

/-- `find?` by key through insert and three predicate-preserving updates. -/
lemma findByKey_pipeline {store : List Row} {k : String}
    (hfresh : findByKey store k = none) (row : Row) (hk : row.key = k)
    {pred₁ pred₂ pred₃ : Row → Bool} {f₁ f₂ f₃ : Row → Row}
    (hf₁ : ∀ r, (f₁ r).key = r.key) (hf₂ : ∀ r, (f₂ r).key = r.key)
    (hf₃ : ∀ r, (f₃ r).key = r.key)
    (hp₁ : pred₁ row = true) (hp₂ : pred₂ (f₁ row) = true)
    (hp₃ : pred₃ (f₂ (f₁ row)) = true) :
    findByKey (updateWhere (updateWhere (updateWhere (store ++ [row])
      pred₁ f₁).1 pred₂ f₂).1 pred₃ f₃).1 k = some (f₃ (f₂ (f₁ row))) := by
  have hq₁ : ∀ r : Row, ((f₁ r).key == k) = (r.key == k) := fun r => by rw [hf₁ r]
  have hq₂ : ∀ r : Row, ((f₂ r).key == k) = (r.key == k) := fun r => by rw [hf₂ r]
  have hq₃ : ∀ r : Row, ((f₃ r).key == k) = (r.key == k) := fun r => by rw [hf₃ r]
  have step0 : (store ++ [row]).find? (fun r => r.key == k) = some row := by
    rw [find?_append_singleton hfresh, if_pos (by simp [hk])]
  have step1 := @find?_updateWhere _ pred₁ _ hq₁ _ _ step0
  rw [if_pos hp₁] at step1
  have step2 := @find?_updateWhere _ pred₂ _ hq₂ _ _ step1
  rw [if_pos hp₂] at step2
  have step3 := @find?_updateWhere _ pred₃ _ hq₃ _ _ step2
  rw [if_pos hp₃] at step3
  exact step3

/-- Candidate names are never the empty string (they contain a dot). -/
lemma candidateName_ne_empty (file ext : String) (n : Nat) :
    candidateName file ext n ≠ "" := by
  intro hcon
  have hd := congrArg String.data hcon
  rw [candidateName] at hd
  have : ('.' : Char) ∈ (("" : String)).data := by
    rw [← hd]
    split <;> simp [String.data_append]
  simpa using this

/-- C4 (amended): `check_query_finished` is three-way.  It answers `none` on
every record not yet finished; after `finish(0)` plus `set_empty()` it
answers the `"empty_file"` sentinel once the record is re-resolved from the
store by key (the in-memory object itself still answers `none`, see C10);
and after `finish(n)` with `n > 0` and the reserved result file present on
disk it answers the verified result-file path. -/
theorem claim_C4_check_three_way :
    (∀ (env : Env) (sq : SQ), sq.data.is_finished = false →
      SearchQuery.check_query_finished env sq = none) ∧
    (∀ (env : Env) (store : List Row) (q : String) (p : PyDict)
        (parent : Option String) (ext : String) (now now₂ : Nat),
      findByKey store (get_key q p) = none →
      (∀ c ∈ (pyLower ext).data, c ≠ '/') →
      ∃ sq₁ st₁ sq₄,
        SearchQuery.init env store (some q) (some p) none parent ext now
          = (.ok sq₁, st₁) ∧
        SearchQuery.init env
          (SearchQuery.set_empty (SearchQuery.finish sq₁ st₁ 0).2.1
            (SearchQuery.finish sq₁ st₁ 0).2.2).2 none none (some sq₁.key)
            none ext now₂
          = (.ok sq₄,
             (SearchQuery.set_empty (SearchQuery.finish sq₁ st₁ 0).2.1
               (SearchQuery.finish sq₁ st₁ 0).2.2).2) ∧
        SearchQuery.check_query_finished env sq₄ = some "empty_file") ∧
    (∀ (env : Env) (sq : SQ) (store : List Row) (n : Int),
      sq.data.is_finished = false → sq.data.result_file ≠ "" →
      (env.folder ++ "/" ++ sq.data.result_file) ∈ env.fs → 0 < n →
      SearchQuery.check_query_finished env (SearchQuery.finish sq store n).2.1
        = some (env.folder ++ "/" ++ sq.data.result_file) ∧
      (env.folder ++ "/" ++ sq.data.result_file) ∈ env.fs) := by
  refine ⟨?_, ?_, ?_⟩
  · intro env sq hfin
    rw [SearchQuery.check_query_finished]
    rw [if_neg (fun hcon => by simp [hfin] at hcon),
        if_neg (fun hcon => by simp [hfin] at hcon)]
  · intro env store q p parent ext now now₂ hfk hext
    obtain ⟨n, hinit, hnotin⟩ := init_fresh_spec env store q p parent ext now
      (findByKeyQuery_none_of_findByKey_none hfk q) hext
    have hchain : findByKey (updateWhere (updateWhere (updateWhere (store ++ [freshRow q p parent now]) (whereQueryKey q (get_key q p)) (fun r => { r with result_file := candidateName (pySlug q ++ "-" ++ get_key q p) (pyLower ext) n })).1 (whereQueryKey q (get_key q p)) (fun r => { r with is_finished := true, num_rows := 0 })).1 (whereQueryKey q (get_key q p)) (fun r => { r with is_empty := true })).1 (get_key q p) = some ({ { { freshRow q p parent now with result_file := candidateName (pySlug q ++ "-" ++ get_key q p) (pyLower ext) n } with is_finished := true, num_rows := 0 } with is_empty := true }) := by
      refine findByKey_pipeline hfk (freshRow q p parent now) rfl
        (fun r => rfl) (fun r => rfl) (fun r => rfl) ?_ ?_ ?_
      · simp [whereQueryKey, freshRow]
      · simp [whereQueryKey, freshRow]
      · simp [whereQueryKey, freshRow]
    refine ⟨(⟨get_key q p, q, { freshRow q p parent now with result_file := candidateName (pySlug q ++ "-" ++ get_key q p) (pyLower ext) n }⟩ : SQ), (updateWhere (store ++ [freshRow q p parent now]) (whereQueryKey q (get_key q p)) (fun r => { r with result_file := candidateName (pySlug q ++ "-" ++ get_key q p) (pyLower ext) n })).1, (⟨get_key q p, q, { { { freshRow q p parent now with result_file := candidateName (pySlug q ++ "-" ++ get_key q p) (pyLower ext) n } with is_finished := true, num_rows := 0 } with is_empty := true }⟩ : SQ), hinit, ?_, ?_⟩
    · have hreload : SearchQuery.init env (updateWhere (updateWhere (updateWhere (store ++ [freshRow q p parent now]) (whereQueryKey q (get_key q p)) (fun r => { r with result_file := candidateName (pySlug q ++ "-" ++ get_key q p) (pyLower ext) n })).1 (whereQueryKey q (get_key q p)) (fun r => { r with is_finished := true, num_rows := 0 })).1 (whereQueryKey q (get_key q p)) (fun r => { r with is_empty := true })).1 none none (some (get_key q p)) none ext now₂
          = (.ok (⟨get_key q p, q, { { { freshRow q p parent now with result_file := candidateName (pySlug q ++ "-" ++ get_key q p) (pyLower ext) n } with is_finished := true, num_rows := 0 } with is_empty := true }⟩ : SQ), (updateWhere (updateWhere (updateWhere (store ++ [freshRow q p parent now]) (whereQueryKey q (get_key q p)) (fun r => { r with result_file := candidateName (pySlug q ++ "-" ++ get_key q p) (pyLower ext) n })).1 (whereQueryKey q (get_key q p)) (fun r => { r with is_finished := true, num_rows := 0 })).1 (whereQueryKey q (get_key q p)) (fun r => { r with is_empty := true })).1) := by
        simp only [SearchQuery.init, hchain]
        rfl
      exact hreload
    · rw [SearchQuery.check_query_finished]
      rw [if_neg (fun hcon => hnotin hcon.2.2), if_pos ⟨rfl, rfl⟩]
  · intro env sq store n hfin hrf hmem hn
    have hfin_eq : (SearchQuery.finish sq store n).2.1
        = ⟨sq.key, sq.query, { sq.data with is_finished := true, num_rows := n }⟩ := by
      rw [SearchQuery.finish, if_neg (by simp [hfin])]
    rw [hfin_eq, SearchQuery.check_query_finished]
    rw [if_pos ⟨rfl, hrf, hmem⟩]
    exact ⟨rfl, hmem⟩

/-- Witness for C4: the three answers at concrete records. -/
theorem claim_C4_witness :
    SearchQuery.check_query_finished sampleEnv sampleSq = none ∧
    (∃ sq₁ st₁ sq₄,
      SearchQuery.init sampleEnv [] (some "climate change") (some sampleParams)
          none none "csv" 100
        = (.ok sq₁, st₁) ∧
      SearchQuery.init sampleEnv
        (SearchQuery.set_empty (SearchQuery.finish sq₁ st₁ 0).2.1
          (SearchQuery.finish sq₁ st₁ 0).2.2).2 none none (some sq₁.key)
          none "csv" 200
        = (.ok sq₄,
           (SearchQuery.set_empty (SearchQuery.finish sq₁ st₁ 0).2.1
             (SearchQuery.finish sq₁ st₁ 0).2.2).2) ∧
      SearchQuery.check_query_finished sampleEnv sq₄ = some "empty_file") ∧
    (SearchQuery.check_query_finished
        ⟨"/data", {"/data/climate-change-9a3bbfee95ecea24b3f2dc2666da972a.csv"}⟩
        (SearchQuery.finish c4Sq [c4Row] 42).2.1
      = some ("/data" ++ "/" ++ c4Sq.data.result_file) ∧
     ("/data" ++ "/" ++ c4Sq.data.result_file) ∈
        (⟨"/data", {"/data/climate-change-9a3bbfee95ecea24b3f2dc2666da972a.csv"}⟩ : Env).fs) :=
  ⟨claim_C4_check_three_way.1 sampleEnv sampleSq rfl,
   claim_C4_check_three_way.2.1 sampleEnv [] "climate change" sampleParams
     none "csv" 100 200 rfl (by decide),
   claim_C4_check_three_way.2.2
     ⟨"/data", {"/data/climate-change-9a3bbfee95ecea24b3f2dc2666da972a.csv"}⟩
     c4Sq [c4Row] 42 rfl (by decide) (by decide) (by decide)⟩

/-! ## Helper lemmas for the JSON round trip -/

/-- Unpack the plain-character test. -/
lemma plainChar_iff {c : Char} : plainChar c = true ↔
    32 ≤ c.toNat ∧ c.toNat < 127 ∧ c ≠ '"' ∧ c ≠ '\\' := by
  simp [plainChar, and_assoc]

/-- `skipWs` does not touch a list whose head is not whitespace. -/
lemma skipWs_cons {c : Char} {cs : List Char} (h : jsonWs c = false) :
    skipWs (c :: cs) = c :: cs := by
  rw [skipWs, if_neg (by simp [h])]

/-- A decimal digit is not any of the JSON structural characters. -/
lemma digit_char_facts {c : Char} (h48 : 48 ≤ c.toNat) (h57 : c.toNat ≤ 57) :
    c ≠ '"' ∧ c ≠ lbrace ∧ c ≠ '[' ∧ c ≠ 't' ∧ c ≠ 'f' ∧ c ≠ 'n' ∧ c ≠ '-' ∧
    jsonWs c = false ∧ isDigitB c = true := by
  have hne : ∀ d : Char, d.toNat < 48 ∨ 57 < d.toNat → c ≠ d := by
    intro d hd hceq
    subst hceq
    omega
  refine ⟨hne _ (by decide), hne _ (by decide), hne _ (by decide), hne _ (by decide),
    hne _ (by decide), hne _ (by decide), hne _ (by decide), ?_, ?_⟩
  · simp only [jsonWs, Bool.or_eq_false_iff, decide_eq_false_iff_not]
    exact ⟨⟨⟨hne _ (by decide), hne _ (by decide)⟩, hne _ (by decide)⟩, hne _ (by decide)⟩
  · simp only [isDigitB, Bool.and_eq_true, decide_eq_true_eq]
    exact ⟨h48, h57⟩

/-- Escaping a plain character is the identity. -/
lemma jsonEscapeChar_plain {c : Char} (h : plainChar c = true) :
    jsonEscapeChar c = [c] := by
  obtain ⟨h32, h127, hq, hb⟩ := plainChar_iff.mp h
  have hgen : ∀ m : Nat, m < 32 → ¬ c.toNat = m := fun m hm he => by omega
  simp only [jsonEscapeChar]
  rw [if_neg hq, if_neg hb, if_neg (hgen 8 (by omega)), if_neg (hgen 9 (by omega)),
    if_neg (hgen 10 (by omega)), if_neg (hgen 12 (by omega)), if_neg (hgen 13 (by omega)),
    if_neg (show ¬ c.toNat < 32 from by omega), if_pos h127]

/-- Escaping a plain string is the identity at the character level. -/
lemma escape_map_plain : ∀ {l : List Char}, (∀ c ∈ l, plainChar c = true) →
    (l.map jsonEscapeChar).flatten = l := by
  intro l
  induction l with
  | nil => intro _; rfl
  | cons c t ih =>
    intro h
    rw [List.map_cons, List.flatten_cons, jsonEscapeChar_plain (h c (by simp)),
      ih (fun x hx => h x (by simp [hx]))]
    rfl

/-- The rendered form of a plain string: quote, characters, quote. -/
lemma jsonQuote_plain {s : String} (h : strPlain s = true) :
    (jsonQuote s).data = '"' :: (s.data ++ ['"']) := by
  rw [strPlain, List.all_eq_true] at h
  have hq : (jsonQuote s).data = '"' :: ((s.data.map jsonEscapeChar).flatten ++ ['"']) := rfl
  rw [hq, escape_map_plain h]

/-- Reading back a plain string body. -/
lemma parseStrBody_plain : ∀ (body : List Char) (fuel : Nat) (rest : List Char),
    body.length < fuel → (∀ c ∈ body, plainChar c = true) →
    parseStrBody fuel (body ++ '"' :: rest) = some (body, rest) := by
  intro body
  induction body with
  | nil =>
    intro fuel rest hfuel _
    match fuel, hfuel with
    | fuel + 1, _ =>
      rw [List.nil_append, parseStrBody, if_pos rfl]
  | cons c t ih =>
    intro fuel rest hfuel hplain
    obtain ⟨h32, h127, hq, hb⟩ := plainChar_iff.mp (hplain c (by simp))
    match fuel, hfuel with
    | fuel + 1, hfuel =>
      rw [List.cons_append, parseStrBody, if_neg hq, if_neg hb, if_neg (by omega)]
      rw [ih fuel rest (by simpa using hfuel) (fun x hx => hplain x (by simp [hx]))]
      rfl

/-- Code bounds of the digits of a rendered number. -/
lemma natDigitsAux_toNat {fuel : Nat} : ∀ {n : Nat} {c : Char},
    c ∈ natDigitsAux fuel n → 48 ≤ c.toNat ∧ c.toNat ≤ 57 := by
  intro n c h
  obtain ⟨h0, h9⟩ := natDigitsAux_digits h
  constructor
  · exact h0
  · exact h9

/-- The leading digit of a positive number is not the zero digit. -/
lemma natDigitsAux_head_ne_zero {fuel : Nat} : ∀ {n : Nat}, 0 < n → n < fuel →
    ∀ {c : Char} {cs : List Char}, natDigitsAux fuel n = c :: cs → c ≠ '0' := by
  induction fuel with
  | zero => omega
  | succ fuel ih =>
    intro n hpos hlt c cs heq
    rw [natDigitsAux] at heq
    split at heq
    · next h10 =>
      injection heq with h1 h2
      subst h1
      interval_cases n <;> revert hpos <;> decide
    · next h10 =>
      have hne := @natDigitsAux_ne_nil fuel (n / 10) ?hf
      case hf =>
        by_contra hz
        have : fuel = 0 := by omega
        subst this
        omega
      obtain ⟨c₀, cs₀, heq₀⟩ := List.exists_cons_of_ne_nil hne
      rw [heq₀, List.cons_append] at heq
      injection heq with h1 h2
      subst h1
      exact ih (by omega) (by
        have h1 : n / 10 < n := Nat.div_lt_self (by omega) (by omega)
        omega) heq₀

/-- `takeWhile`/`dropWhile` split an all-true prefix from a false-headed
tail. -/
lemma takeWhile_dropWhile_append {P : Char → Bool} : ∀ {A rest : List Char},
    (∀ c ∈ A, P c = true) → (∀ c, rest.head? = some c → P c = false) →
    (A ++ rest).takeWhile P = A ∧ (A ++ rest).dropWhile P = rest := by
  intro A
  induction A with
  | nil =>
    intro rest _ hrest
    match rest with
    | [] => exact ⟨rfl, rfl⟩
    | c :: t =>
      rw [List.nil_append, List.takeWhile_cons, List.dropWhile_cons]
      rw [hrest c rfl]
      exact ⟨rfl, rfl⟩
  | cons a A ih =>
    intro rest hA hrest
    rw [List.cons_append, List.takeWhile_cons, List.dropWhile_cons, hA a (by simp)]
    obtain ⟨h1, h2⟩ := ih (fun x hx => hA x (by simp [hx])) hrest
    rw [h1, h2]
    exact ⟨rfl, rfl⟩

/-- Reading back a rendered natural number. -/
lemma parseDigits_natDigits (n : Nat) (rest : List Char)
    (hrest : ∀ c, rest.head? = some c → isDigitB c = false) :
    parseDigits (natDigits n ++ rest) = some (n, rest) := by
  by_cases hz : n = 0
  · subst hz
    rw [show natDigits 0 = ['0'] from rfl, List.cons_append, List.nil_append]
    rw [parseDigits, if_neg (by simp [isDigitB]), if_pos rfl]
  · have hne := @natDigitsAux_ne_nil (n + 1) n (by omega)
    obtain ⟨d, ds, heq⟩ := List.exists_cons_of_ne_nil hne
    have hd_digit : 48 ≤ d.toNat ∧ d.toNat ≤ 57 :=
      natDigitsAux_toNat (by rw [heq]; exact List.mem_cons_self d ds)
    have hd_ne0 : d ≠ '0' := natDigitsAux_head_ne_zero (by omega) (by omega) heq
    have hall : ∀ c ∈ natDigits n, isDigitB c = true := by
      intro c hc
      obtain ⟨h1, h2⟩ := natDigitsAux_toNat hc
      simp [isDigitB, h1, h2]
    have hsplit := @takeWhile_dropWhile_append isDigitB _ _ hall hrest
    have heq' : natDigits n = d :: ds := heq
    rw [heq', List.cons_append, parseDigits]
    rw [if_neg (by simp [isDigitB, hd_digit.1, hd_digit.2]), if_neg hd_ne0]
    rw [← List.cons_append, ← heq']
    rw [hsplit.1, hsplit.2]
    exact congrArg (fun x => some (x, rest)) (digitsVal_natDigits n)

/-- Reading back a rendered integer (the characters after it must not
continue the number). -/
lemma parseNumber_intRepr (i : Int) (rest : List Char)
    (hrest : ∀ c, rest.head? = some c →
      isDigitB c = false ∧ c ≠ '.' ∧ c ≠ 'e' ∧ c ≠ 'E') :
    parseNumber ((intRepr i).data ++ rest) = some (i, rest) := by
  have hnum : ∀ m : Nat, parseDigits (natDigits m ++ rest) = some (m, rest) :=
    fun m => parseDigits_natDigits m rest (fun c hc => (hrest c hc).1)
  have hend : ∀ (neg : Bool) (m : Nat), numEnd neg m rest
      = some (if neg then -(m : Int) else (m : Int), rest) := by
    intro neg m
    match rest with
    | [] => rfl
    | c :: t =>
      obtain ⟨-, hd, he, hE⟩ := hrest c rfl
      rw [numEnd, if_neg (by simp [hd, he, hE])]
  by_cases hneg : i < 0
  · have hdata : (intRepr i).data = '-' :: natDigits i.natAbs := by
      rw [intRepr, if_pos hneg]
      rfl
    rw [hdata, List.cons_append, parseNumber, if_pos rfl, hnum i.natAbs]
    show numEnd true i.natAbs rest = some (i, rest)
    rw [hend]
    have hi : -(↑i.natAbs : Int) = i := by omega
    rw [if_pos rfl, hi]
  · have hdata : (intRepr i).data = natDigits i.natAbs := by
      rw [intRepr, if_neg hneg]
      rfl
    have hne := @natDigitsAux_ne_nil (i.natAbs + 1) i.natAbs (by omega)
    obtain ⟨d, ds, heq⟩ := List.exists_cons_of_ne_nil hne
    have hd_digit : 48 ≤ d.toNat ∧ d.toNat ≤ 57 :=
      natDigitsAux_toNat (by rw [heq]; exact List.mem_cons_self d ds)
    have hfacts := digit_char_facts hd_digit.1 hd_digit.2
    have heq' : natDigits i.natAbs = d :: ds := heq
    rw [hdata, heq', List.cons_append, parseNumber, if_neg hfacts.2.2.2.2.2.2.1]
    rw [← List.cons_append, ← heq', hnum i.natAbs]
    show numEnd false i.natAbs rest = some (i, rest)
    rw [hend]
    have hi : (↑i.natAbs : Int) = i := by omega
    rw [if_neg (by simp), hi]

/-- The first character of a rendered integer: a minus sign or a digit. -/
lemma intRepr_head (i : Int) : ∃ c tail, (intRepr i).data = c :: tail ∧
    (c = '-' ∨ (48 ≤ c.toNat ∧ c.toNat ≤ 57)) := by
  by_cases hneg : i < 0
  · exact ⟨'-', natDigits i.natAbs, by rw [intRepr, if_pos hneg]; rfl, Or.inl rfl⟩
  · have hne := @natDigitsAux_ne_nil (i.natAbs + 1) i.natAbs (by omega)
    obtain ⟨d, ds, heq⟩ := List.exists_cons_of_ne_nil hne
    refine ⟨d, ds, ?_, Or.inr (natDigitsAux_toNat (by rw [heq]; exact List.mem_cons_self d ds))⟩
    rw [intRepr, if_neg hneg]
    exact heq

/-- Reading back a dumped value followed by a comma or closing brace. -/
lemma parseValue_dumpVal (fuel : Nat) (hfuel : 0 < fuel) (v : PyVal)
    (hv : valPlain v = true) (rest : List Char)
    (hrest : rest.head? = some ',' ∨ rest.head? = some rbrace) :
    parseValue fuel ((jsonDumpVal v).data ++ rest) = some (toJVal v, rest) := by
  have hrestNum : ∀ c, rest.head? = some c →
      isDigitB c = false ∧ c ≠ '.' ∧ c ≠ 'e' ∧ c ≠ 'E' := by
    intro c hc
    rcases hrest with h | h <;> rw [hc] at h <;> injection h with h <;> subst h <;>
      exact ⟨by decide, by decide, by decide, by decide⟩
  match fuel, hfuel with
  | fuel + 1, _ =>
    cases v with
    | pstr s =>
      have hplain : ∀ c ∈ s.data, plainChar c = true := by
        rw [valPlain, strPlain, List.all_eq_true] at hv
        exact hv
      have hdata : (jsonDumpVal (.pstr s)).data ++ rest = '"' :: (s.data ++ '"' :: rest) := by
        rw [jsonDumpVal, jsonQuote_plain (by rwa [valPlain] at hv)]
        simp [List.append_assoc]
      rw [hdata, parseValue, skipWs_cons (by decide)]
      dsimp only
      rw [if_pos rfl]
      rw [parseStrBody_plain s.data _ rest (by simp [List.length_append]; omega) hplain]
      rfl
    | pint i =>
      obtain ⟨c, tail, hdata, hc⟩ := intRepr_head i
      have hfacts : c ≠ '"' ∧ c ≠ lbrace ∧ c ≠ '[' ∧ c ≠ 't' ∧ c ≠ 'f' ∧ c ≠ 'n' ∧
          jsonWs c = false := by
        rcases hc with rfl | ⟨h48, h57⟩
        · exact ⟨by decide, by decide, by decide, by decide, by decide, by decide, by decide⟩
        · have := digit_char_facts h48 h57
          exact ⟨this.1, this.2.1, this.2.2.1, this.2.2.2.1, this.2.2.2.2.1,
            this.2.2.2.2.2.1, this.2.2.2.2.2.2.2.1⟩
      have hsplit : (jsonDumpVal (.pint i)).data ++ rest = c :: (tail ++ rest) := by
        rw [jsonDumpVal, hdata]
        rfl
      rw [hsplit, parseValue, skipWs_cons hfacts.2.2.2.2.2.2]
      dsimp only
      rw [if_neg hfacts.1, if_neg hfacts.2.1, if_neg hfacts.2.2.1, if_neg hfacts.2.2.2.1,
        if_neg hfacts.2.2.2.2.1, if_neg hfacts.2.2.2.2.2.1]
      rw [show c :: (tail ++ rest) = (c :: tail) ++ rest from rfl, ← hdata]
      rw [parseNumber_intRepr i rest hrestNum]
      rfl

/-- `skipWs` swallows one leading space in front of a value. -/
lemma parseValue_space (fuel : Nat) (cs : List Char) :
    parseValue (fuel + 1) (' ' :: cs) = parseValue (fuel + 1) cs := by
  rw [parseValue, parseValue, show skipWs (' ' :: cs) = skipWs cs from by
    rw [skipWs, if_pos (by decide)]]

/-- Reading back the dumped members of a nonempty parameter dict. -/
lemma parseMembers_dump : ∀ (kvs : PyDict) (k : String) (v : PyVal) (fuel : Nat),
    kvs.length + 1 < fuel → strPlain k = true → valPlain v = true →
    (∀ kv ∈ kvs, strPlain kv.1 = true ∧ valPlain kv.2 = true) →
    ∀ rest : List Char,
    parseMembers fuel ((joinComma (((k, v) :: kvs).map
        (fun kv => jsonQuote kv.1 ++ ": " ++ jsonDumpVal kv.2))).data ++ rbrace :: rest)
      = some (toJDict ((k, v) :: kvs), rest) := by
  intro kvs
  induction kvs with
  | nil =>
    intro k v fuel hfuel hk hv hall rest
    have hkplain : ∀ c ∈ k.data, plainChar c = true := by
      rw [strPlain, List.all_eq_true] at hk
      exact hk
    have hdata : (joinComma ([(k, v)].map
        (fun kv => jsonQuote kv.1 ++ ": " ++ jsonDumpVal kv.2))).data ++ rbrace :: rest
        = '"' :: (k.data ++ '"' :: ':' :: ' ' :: ((jsonDumpVal v).data ++ rbrace :: rest)) := by
      simp only [List.map_cons, List.map_nil, joinComma, String.data_append,
        jsonQuote_plain hk, List.append_assoc, List.cons_append, List.nil_append]
    obtain ⟨f, rfl⟩ : ∃ f, fuel = f + 1 := ⟨fuel - 1, by omega⟩
    obtain ⟨f₂, rfl⟩ : ∃ f₂, f = f₂ + 1 := ⟨f - 1, by omega⟩
    rw [hdata, parseMembers, if_pos rfl]
    rw [parseStrBody_plain k.data _ _ (by simp [List.length_append]; omega) hkplain]
    dsimp only
    rw [show skipWs (':' :: ' ' :: ((jsonDumpVal v).data ++ rbrace :: rest)) = ':' :: ' ' :: ((jsonDumpVal v).data ++ rbrace :: rest) from skipWs_cons (by decide)]
    dsimp only
    rw [if_pos rfl]
    rw [parseValue_space]
    rw [parseValue_dumpVal (f₂ + 1) (by omega) v hv (rbrace :: rest) (Or.inr rfl)]
    dsimp only
    rw [show skipWs (rbrace :: rest) = rbrace :: rest from skipWs_cons (by decide)]
    dsimp only
    rw [if_neg (by decide), if_pos rfl]
    rfl
  | cons kv₂ kvs₂ ih =>
    intro k v fuel hfuel hk hv hall rest
    have hkplain : ∀ c ∈ k.data, plainChar c = true := by
      rw [strPlain, List.all_eq_true] at hk
      exact hk
    have hk₂ : strPlain kv₂.1 = true := (hall kv₂ (by simp)).1
    have hdata : (joinComma (((k, v) :: kv₂ :: kvs₂).map
        (fun kv => jsonQuote kv.1 ++ ": " ++ jsonDumpVal kv.2))).data ++ rbrace :: rest
        = '"' :: (k.data ++ '"' :: ':' :: ' ' :: ((jsonDumpVal v).data ++ ',' :: ' ' ::
            ((joinComma ((kv₂ :: kvs₂).map
              (fun kv => jsonQuote kv.1 ++ ": " ++ jsonDumpVal kv.2))).data ++ rbrace :: rest))) := by
      simp only [List.map_cons, joinComma, String.data_append,
        jsonQuote_plain hk, List.append_assoc, List.cons_append, List.nil_append]
    have hmidhead : ((joinComma ((kv₂ :: kvs₂).map (fun kv => jsonQuote kv.1 ++ ": " ++ jsonDumpVal kv.2))).data).head? = some '"' := by
      cases kvs₂ with
      | nil =>
        simp only [List.map_cons, List.map_nil, joinComma, String.data_append,
          jsonQuote_plain hk₂, List.append_assoc, List.cons_append, List.nil_append,
          List.head?_cons]
      | cons kv₃ kvs₃ =>
        simp only [List.map_cons, joinComma, String.data_append,
          jsonQuote_plain hk₂, List.append_assoc, List.cons_append, List.head?_cons]
    have hmidcons : ∃ t, (joinComma ((kv₂ :: kvs₂).map (fun kv => jsonQuote kv.1 ++ ": " ++ jsonDumpVal kv.2))).data = '"' :: t := by
      cases hm : (joinComma ((kv₂ :: kvs₂).map (fun kv => jsonQuote kv.1 ++ ": " ++ jsonDumpVal kv.2))).data with
      | nil =>
        rw [hm] at hmidhead
        exact absurd hmidhead (by simp)
      | cons c t =>
        rw [hm, List.head?_cons] at hmidhead
        injection hmidhead with hc
        exact ⟨t, by rw [hc]⟩
    obtain ⟨f, rfl⟩ : ∃ f, fuel = f + 1 := ⟨fuel - 1, by omega⟩
    obtain ⟨f₂, rfl⟩ : ∃ f₂, f = f₂ + 1 := ⟨f - 1, by omega⟩
    rw [hdata, parseMembers, if_pos rfl]
    rw [parseStrBody_plain k.data _ _ (by simp [List.length_append]; omega) hkplain]
    dsimp only
    rw [show skipWs (':' :: ' ' :: ((jsonDumpVal v).data ++ ',' :: ' ' :: ((joinComma ((kv₂ :: kvs₂).map (fun kv => jsonQuote kv.1 ++ ": " ++ jsonDumpVal kv.2))).data ++ rbrace :: rest))) = ':' :: ' ' :: ((jsonDumpVal v).data ++ ',' :: ' ' :: ((joinComma ((kv₂ :: kvs₂).map (fun kv => jsonQuote kv.1 ++ ": " ++ jsonDumpVal kv.2))).data ++ rbrace :: rest)) from skipWs_cons (by decide)]
    dsimp only
    rw [if_pos rfl]
    rw [parseValue_space]
    rw [parseValue_dumpVal (f₂ + 1) (by omega) v hv (',' :: ' ' :: ((joinComma ((kv₂ :: kvs₂).map (fun kv => jsonQuote kv.1 ++ ": " ++ jsonDumpVal kv.2))).data ++ rbrace :: rest)) (Or.inl rfl)]
    dsimp only
    rw [show skipWs (',' :: ' ' :: ((joinComma ((kv₂ :: kvs₂).map (fun kv => jsonQuote kv.1 ++ ": " ++ jsonDumpVal kv.2))).data ++ rbrace :: rest)) = ',' :: ' ' :: ((joinComma ((kv₂ :: kvs₂).map (fun kv => jsonQuote kv.1 ++ ": " ++ jsonDumpVal kv.2))).data ++ rbrace :: rest) from skipWs_cons (by decide)]
    dsimp only
    rw [if_pos rfl]
    obtain ⟨t, ht⟩ := hmidcons
    rw [show skipWs (' ' :: ((joinComma ((kv₂ :: kvs₂).map (fun kv => jsonQuote kv.1 ++ ": " ++ jsonDumpVal kv.2))).data ++ rbrace :: rest)) = (joinComma ((kv₂ :: kvs₂).map (fun kv => jsonQuote kv.1 ++ ": " ++ jsonDumpVal kv.2))).data ++ rbrace :: rest from by
      rw [skipWs, if_pos (by decide), ht, List.cons_append, skipWs_cons (by decide)]]
    rw [ih kv₂.1 kv₂.2 (f₂ + 1) (by simp at hfuel ⊢; omega) hk₂ (hall kv₂ (by simp)).2
      (fun kv hkv => hall kv (by simp [hkv])) rest]
    rfl

/-- Each dumped dict has at least as many middle characters as entries. -/
lemma joinComma_entries_length : ∀ (p : PyDict),
    p.length ≤ (joinComma (p.map (fun kv => jsonQuote kv.1 ++ ": " ++ jsonDumpVal kv.2))).data.length
  | [] => by simp [joinComma]
  | [kv] => by
    simp only [List.map_cons, List.map_nil, joinComma, String.data_append,
      List.length_append, List.length_cons, List.length_nil]
    omega
  | kv :: kv₂ :: p₂ => by
    have ih := joinComma_entries_length (kv₂ :: p₂)
    simp only [List.map_cons, joinComma, String.data_append, List.length_append,
      List.length_cons] at ih ⊢
    omega

/-- Round trip: loading a dumped plain parameter dict gives back the dict. -/
lemma jsonLoads_jsonDumps (p : PyDict) (hp : paramsPlain p = true) :
    jsonLoads (jsonDumps p) = some (.jobj (toJDict p)) := by
  have hall : ∀ kv ∈ p, strPlain kv.1 = true ∧ valPlain kv.2 = true := by
    rw [paramsPlain, List.all_eq_true] at hp
    intro kv hkv
    have := hp kv hkv
    rw [Bool.and_eq_true] at this
    refine ⟨this.1, ?_⟩
    match kv, this with
    | (k, .pint i), h => rfl
    | (k, .pstr s), h => exact h.2
  have hdata : (jsonDumps p).data
      = lbrace :: ((joinComma (p.map (fun kv => jsonQuote kv.1 ++ ": " ++ jsonDumpVal kv.2))).data ++ rbrace :: []) := by
    simp only [jsonDumps, String.data_append, List.append_assoc, List.cons_append,
      List.nil_append]
  rw [jsonLoads, hdata]
  cases p with
  | nil =>
    rfl
  | cons kv p' =>
    have hk : strPlain kv.1 = true := (hall kv (by simp)).1
    have hmidhead : ((joinComma ((kv :: p').map (fun kv => jsonQuote kv.1 ++ ": " ++ jsonDumpVal kv.2))).data).head? = some '"' := by
      cases p' with
      | nil =>
        simp only [List.map_cons, List.map_nil, joinComma, String.data_append,
          jsonQuote_plain hk, List.append_assoc, List.cons_append, List.nil_append,
          List.head?_cons]
      | cons kv₃ kvs₃ =>
        simp only [List.map_cons, joinComma, String.data_append,
          jsonQuote_plain hk, List.append_assoc, List.cons_append, List.head?_cons]
    have hmidcons : ∃ t, (joinComma ((kv :: p').map (fun kv => jsonQuote kv.1 ++ ": " ++ jsonDumpVal kv.2))).data = '"' :: t := by
      cases hm : (joinComma ((kv :: p').map (fun kv => jsonQuote kv.1 ++ ": " ++ jsonDumpVal kv.2))).data with
      | nil =>
        rw [hm] at hmidhead
        exact absurd hmidhead (by simp)
      | cons c t =>
        rw [hm, List.head?_cons] at hmidhead
        injection hmidhead with hc
        exact ⟨t, by rw [hc]⟩
    obtain ⟨t, ht⟩ := hmidcons
    have hlen := joinComma_entries_length (kv :: p')
    rw [parseValue]
    rw [show skipWs (lbrace :: ((joinComma ((kv :: p').map (fun kv => jsonQuote kv.1 ++ ": " ++ jsonDumpVal kv.2))).data ++ rbrace :: []))
        = lbrace :: ((joinComma ((kv :: p').map (fun kv => jsonQuote kv.1 ++ ": " ++ jsonDumpVal kv.2))).data ++ rbrace :: [])
      from skipWs_cons (by decide)]
    dsimp only
    rw [if_neg (by decide), if_pos rfl]
    rw [show skipWs ((joinComma ((kv :: p').map (fun kv => jsonQuote kv.1 ++ ": " ++ jsonDumpVal kv.2))).data ++ rbrace :: [])
        = (joinComma ((kv :: p').map (fun kv => jsonQuote kv.1 ++ ": " ++ jsonDumpVal kv.2))).data ++ rbrace :: [] from by
      rw [ht, List.cons_append, skipWs_cons (by decide)]]
    rw [ht, List.cons_append]
    dsimp only
    rw [if_neg (by decide)]
    rw [← List.cons_append, ← ht]
    rw [parseMembers_dump p' kv.1 kv.2 _ (by
      simp only [List.length_cons, List.length_append] at *
      omega) hk (hall kv (by simp)).2 (fun x hx => hall x (by simp [hx])) []]
    rfl

/-- C7: `get_parameters` deserializes the stored parameter text and returns
the resulting mapping — on a freshly created record the stored text is the
JSON dump of the supplied parameters and parsing it returns exactly that
mapping — and whenever the stored text is malformed (`json.loads` fails),
the method returns the empty mapping instead of propagating a parse error. -/
theorem claim_C7_get_parameters (env : Env) (store : List Row) (q : String)
    (p : PyDict) (parent : Option String) (ext : String) (now : Nat)
    (hplain : paramsPlain p = true)
    (hfresh : findByKeyQuery store (get_key q p) q = none)
    (hext : ∀ c ∈ (pyLower ext).data, c ≠ '/') :
    (∃ sq₁ st₁,
       SearchQuery.init env store (some q) (some p) none parent ext now
         = (.ok sq₁, st₁) ∧
       sq₁.data.parameters = jsonDumps p ∧
       SearchQuery.get_parameters sq₁ = .jobj (toJDict p)) ∧
    (∀ sq : SQ, jsonLoads sq.data.parameters = none →
       SearchQuery.get_parameters sq = .jobj []) := by
  constructor
  · obtain ⟨n, hinit, -⟩ := init_fresh_spec env store q p parent ext now hfresh hext
    refine ⟨_, _, hinit, rfl, ?_⟩
    have h1 : SearchQuery.get_parameters
        ⟨get_key q p, q, { freshRow q p parent now with result_file := candidateName (pySlug q ++ "-" ++ get_key q p) (pyLower ext) n }⟩
        = match jsonLoads (jsonDumps p) with
          | some v => v
          | none => JVal.jobj [] := rfl
    rw [h1, jsonLoads_jsonDumps p hplain]
  · intro sq hbad
    simp only [SearchQuery.get_parameters, hbad]

/-- Witness for C7: the scenario parameters round-trip through the fresh
record, and the corrupt record yields the empty mapping. -/
theorem claim_C7_witness :
    paramsPlain sampleParams = true ∧
    jsonLoads corruptSq.data.parameters = none ∧
    (∃ sq₁ st₁,
       SearchQuery.init sampleEnv [] (some "climate change") (some sampleParams)
           none none "csv" 100
         = (.ok sq₁, st₁) ∧
       sq₁.data.parameters = jsonDumps sampleParams ∧
       SearchQuery.get_parameters sq₁ = .jobj (toJDict sampleParams)) ∧
    SearchQuery.get_parameters corruptSq = .jobj [] :=
  ⟨by decide, rfl,
   (claim_C7_get_parameters sampleEnv [] "climate change" sampleParams
     none "csv" 100 (by decide) rfl (by decide)).1,
   (claim_C7_get_parameters sampleEnv [] "climate change" sampleParams
     none "csv" 100 (by decide) rfl (by decide)).2 corruptSq rfl⟩
